import Mathlib

/-!
Verification development for gdrive_photo_sync: a shallow embedding in Lean 4
of the repository's sync pipeline (sync_engine.py, drive_client.py,
photos_client.py, utils.py) together with theorems settling the claims about
its behaviour.

Modelling conventions:
* Python `Optional[T]` becomes `Option T`; Python truthiness of optional
  values is made explicit (`pyTruthyStr`, `pyTruthyNat`, `pyTruthyList`).
* Machine I/O (Drive/Photos HTTP calls, the regex engine, the browser) is
  abstracted as an `Env` of oracle functions; fallible calls return
  `Except String`.
* Python exceptions become `Except.error`; `try/except` blocks become
  matches on the `Except` value.
* The engine's observable actions (downloads, staging uploads, batched
  commit calls, sleeps, log lines, browser opens, printed per-file results)
  are recorded in an explicit `List Event` trace returned alongside each
  computation's value.
* Drive file metadata dictionaries become the `FileRecord` structure; the
  `size` field is the already-parsed integer (`none` both when the key is
  absent and when the string fails to parse: both branches of
  `filter_files_by_size` drop the record with `continue`).
* `format_file_size` uses Python floating-point formatting; it is abstracted
  as an opaque `Env` field because no claim depends on the rendered size
  string, only on statuses, counts and call traces.
-/

/-- Immutable snapshot of one Drive file's metadata (the dictionaries yielded
by `DriveClient.list_files_recursive` with fields id, name, mimeType, size,
md5Checksum, createdTime, modifiedTime). -/
structure FileRecord where
  id : String
  name : String
  mimeType : String := ""
  size : Option Nat := none
  md5Checksum : Option String := none
  createdTime : Option String := none
  modifiedTime : Option String := none
deriving DecidableEq

/-- Result of syncing a single file (`SyncResult` dataclass in
sync_engine.py): filename, status string ('success', 'skipped' or 'error'),
optional message and optional error text. -/
structure SyncResult where
  filename : String
  status : String
  message : Option String := none
  error : Option String := none
deriving DecidableEq

/-- A media item of the target album as yielded by
`PhotosClient.list_album_media_items` (we keep only the fields the claims
mention: the item id and its filename). -/
structure MediaItem where
  id : String
  filename : String
deriving DecidableEq

/-- Observable actions of the pipeline, recorded as an explicit trace:
service calls made by the engine, retry sleeps, the claim-relevant log
lines of `SyncEngine.sync`, printed per-file results and browser opens. -/
inductive Event where
  | download (file_id : String)
  | upload (filename : String)
  | batchCreate (n : Nat)
  | batchAdd (n : Nat)
  | sleep (seconds : Nat)
  | printResult (r : SyncResult)
  | logNoFiles
  | logCompleted
  | logSummary (success skipped errors : Nat)
  | logFailed
  | browserOpen (url : String)
deriving DecidableEq

/-- Python truthiness of an `Optional[str]`: `None` and `""` are falsy. -/
def pyTruthyStr : Option String → Bool
  | none => false
  | some s => s != ""

/-- Python truthiness of an `Optional[int]`: `None` and `0` are falsy. -/
def pyTruthyNat : Option Nat → Bool
  | none => false
  | some n => n != 0

/-- Python truthiness of an `Optional[List[str]]`: `None` and `[]` are
falsy. -/
def pyTruthyList : Option (List String) → Bool
  | none => false
  | some l => !l.isEmpty

/-! ## utils.py -/

/-- Helper for `generate_unique_filename`: split a character list at its
LAST dot, mirroring Python `original_name.rsplit('.', 1)`. Returns
`some (before, after)` when a dot exists, `none` otherwise. -/
def rsplitDot : List Char → Option (List Char × List Char)
  | [] => none
  | c :: rest =>
    match rsplitDot rest with
    | some (b, e) => some (c :: b, e)
    | none => if c = '.' then some ([], rest) else none

/-- The candidate name `f"{base_name}_{counter}{extension}"` tried by the
collision loop of `generate_unique_filename` (Python `str` of an `int` is
the decimal rendering, i.e. `Nat.repr`). -/
def candidate (base ext : String) (counter : Nat) : String :=
  base ++ "_" ++ Nat.repr counter ++ ext

/-- The `while True` loop of `generate_unique_filename`, made total with
explicit fuel. `exists_fresh` and `uniqueLoop_spec` below prove that with
the fuel passed by `generate_unique_filename` (`|existing| + 1`) the loop
always returns the first absent candidate, so the fuel-exhausted fallback
value is unreachable and the definition agrees with the unbounded Python
loop. -/
def uniqueLoop (base ext : String) (existing : List String) : Nat → Nat → String
  | 0, counter => candidate base ext counter
  | fuel + 1, counter =>
    let new_name := candidate base ext counter
    if new_name ∈ existing then uniqueLoop base ext existing fuel (counter + 1)
    else new_name

/-- The `name_parts` / `base_name` / `extension` computation of
`generate_unique_filename`: `original_name.rsplit('.', 1)` yields the base
and, when a dot exists, the dot-prefixed extension, else the whole name and
an empty extension. -/
def splitBaseExt (original_name : String) : String × String :=
  match rsplitDot original_name.data with
  | some (b, e) => (String.mk b, "." ++ String.mk e)
  | none => (original_name, "")

/-- utils.generate_unique_filename: return `original_name` unchanged when it
does not collide; otherwise split off the extension at the last dot and try
`<base>_1<ext>`, `<base>_2<ext>`, ... until a name absent from
`existing_names` is found. The Python set of existing names is modelled as a
list queried by membership. -/
def generate_unique_filename (original_name : String) (existing_names : List String) : String :=
  if original_name ∈ existing_names then
    uniqueLoop (splitBaseExt original_name).1 (splitBaseExt original_name).2 existing_names
      (existing_names.length + 1) 1
  else original_name

/-! ## drive_client.py -/

/-- Python `str.startswith`, computed on the character lists so that it
reduces inside the kernel. -/
def strStartsWith (s pre : String) : Bool :=
  pre.data.isPrefixOf s.data

/-- Python `str.endswith`, computed on the character lists. -/
def strEndsWith (s suf : String) : Bool :=
  suf.data.isSuffixOf s.data

/-- Python `str.lower` (ASCII case, which is all the source compares). -/
def strToLower (s : String) : String :=
  String.mk (s.data.map Char.toLower)

/-- DriveClient.is_media_file: the mime type starts with `image/` or
`video/`. -/
def is_media_file (f : FileRecord) : Bool :=
  strStartsWith f.mimeType "image/" || strStartsWith f.mimeType "video/"

/-- DriveClient.filter_files_by_type: keep files whose lowercased name ends
with one of the allowed extensions (each prefixed with a dot and
lowercased); an empty allow-list is a no-op. -/
def filter_files_by_type (files : List FileRecord) (allowed_types : List String) : List FileRecord :=
  if allowed_types.isEmpty then files
  else
    let allowed_extensions := allowed_types.map (fun ext => "." ++ strToLower ext)
    files.filter (fun f => allowed_extensions.any (fun ext => strEndsWith (strToLower f.name) ext))

/-- DriveClient.filter_files_by_size: drop records with no reported size;
when the minimum (KB) is truthy drop records below it, when the maximum
(MB) is truthy drop records above it. Both comparisons in the source are
strict (`<` / `>`) guarding a `continue`, so the kept range is inclusive at
both bounds. -/
def filter_files_by_size (files : List FileRecord) (min_size_kb max_size_mb : Option Nat) :
    List FileRecord :=
  files.filter (fun f =>
    match f.size with
    | none => false
    | some size_bytes =>
      if pyTruthyNat min_size_kb && decide (size_bytes < min_size_kb.getD 0 * 1024) then false
      else if pyTruthyNat max_size_mb &&
          decide (size_bytes > max_size_mb.getD 0 * 1024 * 1024) then false
      else true)

/-! ## The environment of external collaborators -/

/-- Oracle environment: the Google Drive and Google Photos services, the
regex engine, the browser, and the float-formatting helper, all abstracted
as pure functions. Fallible network calls return `Except String`. -/
structure Env where
  download_file : String → Except String (List Nat)
  upload_media : List Nat → String → Except String String
  batch_create_media_items : List (String × String) → Except String (List String)
  batch_add_media_to_album : String → List String → Except String Unit
  get_or_create_album : String → Except String String
  webbrowser_open : String → Except String Unit
  list_files_recursive : String → List FileRecord
  album_media_items : String → List MediaItem
  re_compile : String → Option (String → Bool)
  format_file_size : Nat → String

/-- Engine configuration: the constructor arguments of `SyncEngine`
(auth-related flags omitted; authentication is outside the modelled core). -/
structure SyncConfig where
  skip_errors : Bool := false
  file_types : Option (List String) := none
  regex_filter : Option String := none
  min_size_kb : Option Nat := none
  max_size_mb : Option Nat := none
  launch_browser : Bool := true
deriving DecidableEq

/-! ## photos_client.py -/

/-- PhotosClient.check_media_exists_in_album: scan the album's media items
and report whether one has the given id (the exception branch returning
False is unreachable here because the listing oracle is a pure list). -/
def check_media_exists_in_album (env : Env) (album_id media_item_id : String) : Bool :=
  (env.album_media_items album_id).any (fun item => item.id == media_item_id)

/-- PhotosClient.get_album_url. -/
def get_album_url (album_id : String) : String :=
  "https://photos.google.com/lr/album/" ++ album_id

/-! ## drive_client.py filters that need the environment -/

/-- DriveClient.filter_files_by_regex: an empty pattern is a no-op; an
invalid pattern (the regex engine's compile returns `none`, i.e. `re.error`)
logs and returns the input unfiltered; otherwise keep files whose name the
compiled pattern matches (search semantics, supplied by the oracle). -/
def filter_files_by_regex (env : Env) (files : List FileRecord) (pattern : String) :
    List FileRecord :=
  if pattern == "" then files
  else
    match env.re_compile pattern with
    | none => files
    | some search => files.filter (fun f => search f.name)

/-! ## sync_engine.py -/

/-- The size stage of `SyncEngine._filter_files` (lines 158-162): the size
filter runs only when `self.min_size_kb or self.max_size_mb` is truthy,
otherwise the stage is skipped and the input passes through unchanged. -/
def sizeFilterStage (min_size_kb max_size_mb : Option Nat) (files : List FileRecord) :
    List FileRecord :=
  if pyTruthyNat min_size_kb || pyTruthyNat max_size_mb then
    filter_files_by_size files min_size_kb max_size_mb
  else files

/-- SyncEngine._filter_files: media-type filter, then (when configured)
extension filter, regex filter and size filter, in that fixed order. The
guards mirror Python truthiness of the configured options. -/
def filterFiles (env : Env) (cfg : SyncConfig) (all_files : List FileRecord) : List FileRecord :=
  let media1 := all_files.filter is_media_file
  let media2 :=
    if pyTruthyList cfg.file_types then filter_files_by_type media1 (cfg.file_types.getD [])
    else media1
  let media3 :=
    if pyTruthyStr cfg.regex_filter then filter_files_by_regex env media2 (cfg.regex_filter.getD "")
    else media2
  sizeFilterStage cfg.min_size_kb cfg.max_size_mb media3

/-- The skip message of `_upload_files` for a content-hash already in the
processed set. -/
def dupSkipMessage : String := "duplicate content (same hash already processed)"

/-- The `skipped` result of `_upload_files` for a duplicated content-hash. -/
def dupSkipResult (f : FileRecord) : SyncResult :=
  SyncResult.mk f.name "skipped" (some dupSkipMessage) none

/-- The `error` result of `_upload_files` for a failed download or staging
call under `skip_errors`. -/
def uploadErrorResult (f : FileRecord) (e : String) : SyncResult :=
  SyncResult.mk f.name "error" none (some e)

/-- The duplicate test of `_upload_files`:
`if file_hash and file_hash in processed_hashes`. -/
def isDupHash (hashes : List String) (f : FileRecord) : Bool :=
  pyTruthyStr f.md5Checksum && decide (f.md5Checksum.getD "" ∈ hashes)

/-- SyncEngine._upload_files: walk the batch in order; a file whose truthy
content-hash is already in `processed_hashes` yields a `skipped` result with
`dupSkipMessage` and no service call; otherwise download from Drive and
stage to Photos, collecting `(upload_token, filename)` pairs and the file
metadata of staged files; a download or staging exception yields an `error`
result under `skip_errors` and aborts the run otherwise. Returns
`(tokens, file_mapping, results)` plus the call trace. -/
def uploadFiles (env : Env) (skip_errors : Bool) (hashes : List String) :
    List FileRecord →
    Except String (List (String × String) × List FileRecord × List SyncResult) × List Event
  | [] => (.ok ([], [], []), [])
  | f :: rest =>
    if isDupHash hashes f then
      match uploadFiles env skip_errors hashes rest with
      | (.ok (toks, mapping, results), tr) =>
        (.ok (toks, mapping, dupSkipResult f :: results), tr)
      | (.error e, tr) => (.error e, tr)
    else
      match env.download_file f.id with
      | .error e =>
        if skip_errors then
          match uploadFiles env skip_errors hashes rest with
          | (.ok (toks, mapping, results), tr) =>
            (.ok (toks, mapping, uploadErrorResult f e :: results), Event.download f.id :: tr)
          | (.error e', tr) => (.error e', Event.download f.id :: tr)
        else (.error e, [Event.download f.id])
      | .ok content =>
        match env.upload_media content f.name with
        | .error e =>
          if skip_errors then
            match uploadFiles env skip_errors hashes rest with
            | (.ok (toks, mapping, results), tr) =>
              (.ok (toks, mapping, uploadErrorResult f e :: results),
                Event.download f.id :: Event.upload f.name :: tr)
            | (.error e', tr) => (.error e', Event.download f.id :: Event.upload f.name :: tr)
          else (.error e, [Event.download f.id, Event.upload f.name])
        | .ok token =>
          match uploadFiles env skip_errors hashes rest with
          | (.ok (toks, mapping, results), tr) =>
            (.ok ((token, f.name) :: toks, f :: mapping, results),
              Event.download f.id :: Event.upload f.name :: tr)
          | (.error e', tr) => (.error e', Event.download f.id :: Event.upload f.name :: tr)

/-- Add one hash to the processed set (Python `set.add`). -/
def addHash (h : String) (hs : List String) : List String :=
  if h ∈ hs then hs else hs ++ [h]

/-- The hash bookkeeping of `_create_and_add_media_items`'s success loop:
for each staged file, add its content-hash to the processed set when the
hash is truthy. -/
def addHashes : List FileRecord → List String → List String
  | [], hs => hs
  | f :: fs, hs =>
    addHashes fs (if pyTruthyStr f.md5Checksum then addHash (f.md5Checksum.getD "") hs else hs)

/-- The success message of `_create_and_add_media_items`. -/
def successMessage (env : Env) (f : FileRecord) : String :=
  "uploaded successfully (" ++ env.format_file_size (f.size.getD 0) ++ ")"

/-- The `success` result of `_create_and_add_media_items` for one staged
file. -/
def commitSuccessResult (env : Env) (f : FileRecord) : SyncResult :=
  SyncResult.mk f.name "success" (some (successMessage env f)) none

/-- The `error` result of `_create_and_add_media_items` when a batched call
failed under `skip_errors`. -/
def commitErrorResult (e : String) (f : FileRecord) : SyncResult :=
  SyncResult.mk f.name "error" none (some e)

/-- SyncEngine._create_and_add_media_items: commit all collected upload
tokens with one batched create call, then add the resulting media item ids
to the album with one batched add call; on success every staged file gets a
`success` result and its truthy hash enters the processed set; if either
batched call raises, every staged file gets an `error` result under
`skip_errors` and the run aborts otherwise (the processed set is unchanged).
Returns the results and the updated processed set, plus the call trace. -/
def createAndAddMediaItems (env : Env) (skip_errors : Bool) (tokens : List (String × String))
    (mapping : List FileRecord) (album_id : String) (hashes : List String) :
    Except String (List SyncResult × List String) × List Event :=
  match env.batch_create_media_items tokens with
  | .error e =>
    (if skip_errors then .ok (mapping.map (commitErrorResult e), hashes) else .error e,
     [Event.batchCreate tokens.length])
  | .ok ids =>
    match env.batch_add_media_to_album album_id ids with
    | .error e =>
      (if skip_errors then .ok (mapping.map (commitErrorResult e), hashes) else .error e,
       [Event.batchCreate tokens.length, Event.batchAdd ids.length])
    | .ok _ =>
      (.ok (mapping.map (commitSuccessResult env), addHashes mapping hashes),
       [Event.batchCreate tokens.length, Event.batchAdd ids.length])

/-- SyncEngine._process_files: phase 1 (`_upload_files`) then, when any
upload tokens were collected, phase 2 (`_create_and_add_media_items`);
results of both phases are concatenated in order. -/
def processFiles (env : Env) (skip_errors : Bool) (album_id : String) (hashes : List String)
    (batch_files : List FileRecord) :
    Except String (List SyncResult × List String) × List Event :=
  match uploadFiles env skip_errors hashes batch_files with
  | (.error e, tr) => (.error e, tr)
  | (.ok (tokens, mapping, results1), tr1) =>
    if tokens.isEmpty then (.ok (results1, hashes), tr1)
    else
      match createAndAddMediaItems env skip_errors tokens mapping album_id hashes with
      | (.error e, tr2) => (.error e, tr1 ++ tr2)
      | (.ok (results2, hashes'), tr2) => (.ok (results1 ++ results2, hashes'), tr1 ++ tr2)

/-- Fueled worker for `toBatches`; fuel `l.length` is always sufficient for
a positive batch size because every step drops at least one element. -/
def toBatchesGo (bs : Nat) : Nat → List FileRecord → List (List FileRecord)
  | 0, _ => []
  | _ + 1, [] => []
  | fuel + 1, a :: l => (a :: l).take bs :: toBatchesGo bs fuel ((a :: l).drop bs)

/-- The batch slicing of `_process_files_in_batches`:
`range(0, len(files), batch_size)` with `files[batch_start:batch_end]`. -/
def toBatches (bs : Nat) (l : List FileRecord) : List (List FileRecord) :=
  toBatchesGo bs l.length l

/-- The per-result counting loop of `_process_files_in_batches`: statuses
`success` and `skipped` bump their counters, anything else counts as an
error. -/
def countResults : List SyncResult → Nat × Nat × Nat → Nat × Nat × Nat
  | [], c => c
  | r :: rs, (s, k, e) =>
    if r.status == "success" then countResults rs (s + 1, k, e)
    else if r.status == "skipped" then countResults rs (s, k + 1, e)
    else countResults rs (s, k, e + 1)

/-- Batch loop of `_process_files_in_batches`: process each batch with
`processFiles`, print every result as it is produced, update the counters,
and thread the processed-hash set into the next batch. -/
def processBatchesGo (env : Env) (skip_errors : Bool) (album_id : String) :
    List (List FileRecord) → List String → Nat × Nat × Nat →
    Except String (Nat × Nat × Nat) × List Event
  | [], _, counts => (.ok counts, [])
  | batch :: rest, hashes, counts =>
    match processFiles env skip_errors album_id hashes batch with
    | (.error e, tr) => (.error e, tr)
    | (.ok (results, hashes'), tr) =>
      match processBatchesGo env skip_errors album_id rest hashes' (countResults results counts) with
      | (r, tr') => (r, tr ++ results.map Event.printResult ++ tr')

/-- SyncEngine._process_files_in_batches: slice the filtered files into
batches of `batch_size` (default 50), start with an empty processed-hash
set and zero counters, and fold the batch loop. Returns the final
`(success, skipped, error)` counts. -/
def processFilesInBatches (env : Env) (skip_errors : Bool) (files : List FileRecord)
    (album_id : String) (batch_size : Nat := 50) :
    Except String (Nat × Nat × Nat) × List Event :=
  processBatchesGo env skip_errors album_id (toBatches batch_size files) [] (0, 0, 0)

/-- The notification tail of `SyncEngine.sync` (lines 125-129): only when
`launch_browser` is set and the success count is positive, compute the
album URL and open the browser; a browser failure is logged by the outer
handler and re-raised. -/
def syncNotify (env : Env) (cfg : SyncConfig) (target_album_id : String) (s : Nat) :
    Except String Unit × List Event :=
  if cfg.launch_browser && decide (0 < s) then
    match env.webbrowser_open (get_album_url target_album_id) with
    | .ok _ => (.ok (), [Event.browserOpen (get_album_url target_album_id)])
    | .error m => (.error m, [Event.browserOpen (get_album_url target_album_id), Event.logFailed])
  else (.ok (), [])

/-- SyncEngine.sync: resolve the target album (caller-supplied id wins,
else find-or-create by name, else a ValueError), list and filter the Drive
files, short-circuit with a log line when nothing is left, otherwise run
the batch pipeline, log the completion and summary lines, and finally run
the notification tail (`syncNotify`); any exception — including one from
the browser step — is logged by the outer handler and re-raised. -/
def sync (env : Env) (cfg : SyncConfig) (drive_folder_id : String)
    (album_name album_id : Option String) : Except String Unit × List Event :=
  match
    (if pyTruthyStr album_id then some (Except.ok (album_id.getD ""))
     else if pyTruthyStr album_name then some (env.get_or_create_album (album_name.getD ""))
     else none) with
  | none => (.error "Either album_name or album_id must be provided", [])
  | some (.error e) => (.error e, [Event.logFailed])
  | some (.ok target_album_id) =>
    let media_files := filterFiles env cfg (env.list_files_recursive drive_folder_id)
    if media_files.isEmpty then (.ok (), [Event.logNoFiles])
    else
      match processFilesInBatches env cfg.skip_errors media_files target_album_id with
      | (.error e, tr) => (.error e, tr ++ [Event.logFailed])
      | (.ok (s, k, er), tr) =>
        match syncNotify env cfg target_album_id s with
        | (r, trn) => (r, tr ++ [Event.logCompleted, Event.logSummary s k er] ++ trn)

/-! ## Retry loops of drive_client.py and photos_client.py

Each retrying network call is modelled against a per-attempt oracle giving
the outcome of attempt number `k` (0-based). The loop
`for attempt in range(max_retries + 1)` is translated with fuel
`max_retries + 1 - attempt`, which is exactly the number of remaining
iterations, so the fuel-0 branch is unreachable. The catch clauses differ:
`download_file`, `upload_media` and `batch_create_media_items` catch
`Exception` (every modelled error, a plain string), while
`batch_add_media_to_album` catches only `HttpError`, so its oracle's
errors carry the `PyError` distinction and only the `httpError` kind is
retried. -/

/-- The shared retry loop body: try the current attempt; on failure sleep
`2 ** attempt` seconds and retry while `attempt < max_retries`, else
re-raise the last error. -/
def retryGo {α : Type} (o : Nat → Except String α) (max_retries : Nat) :
    Nat → Nat → Except String α × List Event
  | 0, _ => (.error "out of fuel", [])
  | fuel + 1, attempt =>
    match o attempt with
    | .ok a => (.ok a, [])
    | .error e =>
      if attempt < max_retries then
        match retryGo o max_retries fuel (attempt + 1) with
        | (r, evs) => (r, Event.sleep (2 ^ attempt) :: evs)
      else (.error e, [])

/-- Run a retrying call from attempt 0: `for attempt in range(max_retries+1)`. -/
def retryCall {α : Type} (o : Nat → Except String α) (max_retries : Nat) :
    Except String α × List Event :=
  retryGo o max_retries (max_retries + 1) 0

/-- DriveClient.download_file with its default `max_retries = 2`, against a
per-attempt oracle for the `files().get_media` request. -/
def drive_download_file (o : Nat → Except String (List Nat)) :
    Except String (List Nat) × List Event :=
  retryCall o 2

/-- PhotosClient.upload_media with its default `max_retries = 2`, against a
per-attempt oracle for the raw-bytes upload request. -/
def photos_upload_media (o : Nat → Except String String) :
    Except String String × List Event :=
  retryCall o 2

/-- Worker for `photos_batch_create_media_items`: retry each 50-token chunk
up to `max_retries` times, extending the accumulated media item ids on
success and propagating the last error once retries are exhausted. -/
def batchCreateChunksGo (o : List (String × String) → Nat → Except String (List String)) :
    List (List (String × String)) → Except String (List String) × List Event
  | [] => (.ok [], [])
  | chunk :: rest =>
    match retryCall (o chunk) 2 with
    | (.error e, evs) => (.error e, evs)
    | (.ok ids, evs) =>
      match batchCreateChunksGo o rest with
      | (.error e, evs') => (.error e, evs ++ evs')
      | (.ok ids', evs') => (.ok (ids ++ ids'), evs ++ evs')

/-- Fueled 50-chunking of an arbitrary list (same slicing as `toBatches`,
kept separate because `toBatchesGo` is specialised to `FileRecord`). -/
def chunks50Go {α : Type} : Nat → List α → List (List α)
  | 0, _ => []
  | _ + 1, [] => []
  | fuel + 1, a :: l => (a :: l).take 50 :: chunks50Go fuel ((a :: l).drop 50)

/-- The `range(0, len(xs), 50)` slicing of the photos client's batched
calls. -/
def chunks50 {α : Type} (l : List α) : List (List α) :=
  chunks50Go l.length l

/-- PhotosClient.batch_create_media_items with its default
`max_retries = 2`: process the tokens in chunks of 50, each chunk retried
against the per-attempt oracle `o chunk`. -/
def photos_batch_create_media_items
    (o : List (String × String) → Nat → Except String (List String))
    (tokens : List (String × String)) : Except String (List String) × List Event :=
  batchCreateChunksGo o (chunks50 tokens)

/-- Exceptions a Photos API request can raise, as
`batch_add_media_to_album` distinguishes them: `googleapiclient.errors.HttpError`,
which its except clause catches (photos_client.py line 292), or any other
exception, which that clause does not catch. The other three retrying call
sites catch `Exception`, so for them a single error string suffices. -/
inductive PyError where
  | httpError (msg : String)
  | otherError (msg : String)
deriving DecidableEq

/-- The retry loop of `batch_add_media_to_album`: same shape as `retryGo`,
but only an `HttpError` is caught and retried with the `2 ** attempt`
sleep — any other exception propagates immediately, with no sleep and no
further attempt. -/
def retryGoHttp (o : Nat → Except PyError Unit) (max_retries : Nat) :
    Nat → Nat → Except PyError Unit × List Event
  | 0, _ => (.error (PyError.otherError "out of fuel"), [])
  | fuel + 1, attempt =>
    match o attempt with
    | .ok a => (.ok a, [])
    | .error (PyError.otherError m) => (.error (PyError.otherError m), [])
    | .error (PyError.httpError m) =>
      if attempt < max_retries then
        match retryGoHttp o max_retries fuel (attempt + 1) with
        | (r, evs) => (r, Event.sleep (2 ^ attempt) :: evs)
      else (.error (PyError.httpError m), [])

/-- Run the HttpError-only retrying call from attempt 0. -/
def retryCallHttp (o : Nat → Except PyError Unit) (max_retries : Nat) :
    Except PyError Unit × List Event :=
  retryGoHttp o max_retries (max_retries + 1) 0

/-- Worker for `photos_batch_add_media_to_album`: retry each 50-id chunk,
catching only `HttpError`. -/
def batchAddChunksGo (o : List String → Nat → Except PyError Unit) :
    List (List String) → Except PyError Unit × List Event
  | [] => (.ok (), [])
  | chunk :: rest =>
    match retryCallHttp (o chunk) 2 with
    | (.error e, evs) => (.error e, evs)
    | (.ok _, evs) =>
      match batchAddChunksGo o rest with
      | (r, evs') => (r, evs ++ evs')

/-- PhotosClient.batch_add_media_to_album with its default `max_retries = 2`:
process the media item ids in chunks of 50, each chunk retried — but its
except clause catches only `HttpError`, so a `PyError.otherError` raises
immediately without sleep or retry. -/
def photos_batch_add_media_to_album (o : List String → Nat → Except PyError Unit)
    (media_item_ids : List String) : Except PyError Unit × List Event :=
  batchAddChunksGo o (chunks50 media_item_ids)

/-- The retry policy as the spec words it (comparison target for the
refinement claim about retries): at most 3 attempts, sleeping 1 second
before the second and 2 seconds before the third, the last error raised
once retries are exhausted and later attempts never consulted. Generic in
the error type so it can also be compared against the add-to-album call. -/
def specRetryPolicy {e a : Type} (o : Nat → Except e a) : Except e a × List Event :=
  match o 0 with
  | .ok a => (.ok a, [])
  | .error _ =>
    match o 1 with
    | .ok a => (.ok a, [Event.sleep 1])
    | .error _ =>
      match o 2 with
      | .ok a => (.ok a, [Event.sleep 1, Event.sleep 2])
      | .error e => (.error e, [Event.sleep 1, Event.sleep 2])

/-- The retry policy the add-to-album call actually implements, stated as
a cascade (comparison target): an `HttpError` outcome is retried with the
1s/2s backoff, any other exception is raised immediately on its first
occurrence, with no sleep and no further attempt. -/
def specRetryPolicyHttp (o : Nat → Except PyError Unit) : Except PyError Unit × List Event :=
  match o 0 with
  | .ok a => (.ok a, [])
  | .error (PyError.otherError m) => (.error (PyError.otherError m), [])
  | .error (PyError.httpError _) =>
    match o 1 with
    | .ok a => (.ok a, [Event.sleep 1])
    | .error (PyError.otherError m) => (.error (PyError.otherError m), [Event.sleep 1])
    | .error (PyError.httpError _) =>
      match o 2 with
      | .ok a => (.ok a, [Event.sleep 1, Event.sleep 2])
      | .error e => (.error e, [Event.sleep 1, Event.sleep 2])

/-! ## Theory: the decimal rendering used by the candidate names is
injective, so the collision loop always terminates within
`|existing| + 1` steps. -/

/-- Numeric value of a decimal digit character. -/
def digitVal (c : Char) : Nat := c.toNat - 48

/-- Accumulator-style decimal value of a character list (left fold). -/
def valAux : Nat → List Char → Nat
  | a, [] => a
  | a, c :: cs => valAux (10 * a + digitVal c) cs

theorem valAux_cons (a : Nat) (c : Char) (cs : List Char) :
    valAux a (c :: cs) = valAux (10 * a + digitVal c) cs := rfl

theorem valAux_nil (a : Nat) : valAux a [] = a := rfl

theorem valAux_append (xs : List Char) : ∀ (a : Nat) (ys : List Char),
    valAux a (xs ++ ys) = valAux (valAux a xs) ys := by
  induction xs with
  | nil => intro a ys; rfl
  | cons c cs ih =>
    intro a ys
    have h1 : valAux a ((c :: cs) ++ ys) = valAux (10 * a + digitVal c) (cs ++ ys) := rfl
    have h2 : valAux a (c :: cs) = valAux (10 * a + digitVal c) cs := rfl
    rw [h1, h2, ih]

theorem toDigitsCore_ten_append (fuel : Nat) : ∀ (n : Nat) (ds : List Char),
    Nat.toDigitsCore 10 fuel n ds = Nat.toDigitsCore 10 fuel n [] ++ ds := by
  induction fuel with
  | zero => intro n ds; rfl
  | succ fuel ih =>
    intro n ds
    simp only [Nat.toDigitsCore]
    by_cases h : n / 10 = 0
    · simp [h]
    · simp only [if_neg h]
      rw [ih (n / 10) (Nat.digitChar (n % 10) :: ds), ih (n / 10) [Nat.digitChar (n % 10)]]
      simp

theorem digitVal_digitChar : ∀ r < 10, digitVal (Nat.digitChar r) = r := by decide

theorem valAux_toDigitsCore : ∀ (fuel n : Nat), n < 10 ^ fuel →
    valAux 0 (Nat.toDigitsCore 10 fuel n []) = n := by
  intro fuel
  induction fuel with
  | zero =>
    intro n h
    have hn : n = 0 := by simpa using Nat.lt_one_iff.mp (by simpa using h)
    subst hn; rfl
  | succ fuel ih =>
    intro n h
    simp only [Nat.toDigitsCore]
    by_cases h0 : n / 10 = 0
    · have hn : n < 10 := by omega
      rw [if_pos h0, valAux_cons, valAux_nil,
        digitVal_digitChar (n % 10) (Nat.mod_lt _ (by norm_num))]
      omega
    · have hdiv : n / 10 < 10 ^ fuel := by
        have h10 : 0 < (10 : Nat) := by norm_num
        rw [Nat.div_lt_iff_lt_mul h10]
        calc n < 10 ^ (fuel + 1) := h
          _ = 10 ^ fuel * 10 := by ring
      rw [if_neg h0, toDigitsCore_ten_append, valAux_append, ih (n / 10) hdiv, valAux_cons,
        valAux_nil, digitVal_digitChar (n % 10) (Nat.mod_lt _ (by norm_num))]
      omega

theorem valAux_repr (n : Nat) : valAux 0 (Nat.repr n).data = n := by
  have h : n < 10 ^ (n + 1) := by
    calc n < 10 ^ n := Nat.lt_pow_self (by norm_num) n
      _ ≤ 10 ^ (n + 1) := Nat.pow_le_pow_right (by norm_num) (Nat.le_succ n)
  exact valAux_toDigitsCore (n + 1) n h

theorem candidate_injective (base ext : String) : Function.Injective (candidate base ext) := by
  intro i j hij
  have hd : (candidate base ext i).data = (candidate base ext j).data := by rw [hij]
  simp only [candidate, String.data_append, List.append_assoc] at hd
  have h1 := List.append_cancel_left hd
  have h2 := List.append_cancel_left h1
  have h3 := List.append_cancel_right h2
  have hv : valAux 0 (Nat.repr i).data = valAux 0 (Nat.repr j).data := by rw [h3]
  rwa [valAux_repr, valAux_repr] at hv

theorem exists_fresh (base ext : String) (existing : List String) (counter : Nat) :
    ∃ j, j ≤ existing.length ∧ candidate base ext (counter + j) ∉ existing := by
  by_contra hc
  push_neg at hc
  have hinj : Function.Injective (fun j : Nat => candidate base ext (counter + j)) := by
    intro a b hab
    exact Nat.add_left_cancel (candidate_injective base ext hab)
  have hsub : (Finset.range (existing.length + 1)).image
      (fun j => candidate base ext (counter + j)) ⊆ existing.toFinset := by
    intro x hx
    simp only [Finset.mem_image, Finset.mem_range] at hx
    obtain ⟨j, hj, rfl⟩ := hx
    exact List.mem_toFinset.mpr (hc j (Nat.lt_succ_iff.mp hj))
  have hcard := Finset.card_le_card hsub
  rw [Finset.card_image_of_injective _ hinj, Finset.card_range] at hcard
  have hle := existing.toFinset_card_le
  omega

theorem uniqueLoop_spec (base ext : String) (existing : List String) :
    ∀ (fuel counter : Nat), (∃ j, j < fuel ∧ candidate base ext (counter + j) ∉ existing) →
    ∃ j, (∀ i, i < j → candidate base ext (counter + i) ∈ existing) ∧
      candidate base ext (counter + j) ∉ existing ∧
      uniqueLoop base ext existing fuel counter = candidate base ext (counter + j) := by
  intro fuel
  induction fuel with
  | zero =>
    rintro counter ⟨j, hj, -⟩
    omega
  | succ fuel ih =>
    rintro counter ⟨j, hj, hfresh⟩
    by_cases hmem : candidate base ext counter ∈ existing
    · have hj0 : j ≠ 0 := by
        rintro rfl
        simp only [Nat.add_zero] at hfresh
        exact hfresh hmem
      have hshift : (counter + 1) + (j - 1) = counter + j := by omega
      obtain ⟨j2, hall, hf2, heq⟩ := ih (counter + 1)
        ⟨j - 1, by omega, by rw [hshift]; exact hfresh⟩
      refine ⟨j2 + 1, ?_, ?_, ?_⟩
      · intro i hi
        cases i with
        | zero => simpa using hmem
        | succ i =>
          have hre : counter + (i + 1) = (counter + 1) + i := by omega
          rw [hre]
          exact hall i (by omega)
      · have hre : counter + (j2 + 1) = (counter + 1) + j2 := by omega
        rw [hre]
        exact hf2
      · have hre : counter + (j2 + 1) = (counter + 1) + j2 := by omega
        rw [hre]
        simp only [uniqueLoop, if_pos hmem]
        exact heq
    · refine ⟨0, by omega, by simpa using hmem, ?_⟩
      simp only [uniqueLoop, if_neg hmem, Nat.add_zero]

theorem generate_unique_filename_fresh (orig : String) (existing : List String)
    (h : orig ∈ existing) :
    ∃ c, 1 ≤ c ∧
      (∀ k, 1 ≤ k → k < c →
        candidate (splitBaseExt orig).1 (splitBaseExt orig).2 k ∈ existing) ∧
      candidate (splitBaseExt orig).1 (splitBaseExt orig).2 c ∉ existing ∧
      generate_unique_filename orig existing =
        candidate (splitBaseExt orig).1 (splitBaseExt orig).2 c := by
  obtain ⟨j, hj, hfresh⟩ := exists_fresh (splitBaseExt orig).1 (splitBaseExt orig).2 existing 1
  obtain ⟨j2, hall, hf2, heq⟩ := uniqueLoop_spec (splitBaseExt orig).1 (splitBaseExt orig).2
    existing (existing.length + 1) 1 ⟨j, by omega, hfresh⟩
  refine ⟨1 + j2, by omega, ?_, hf2, ?_⟩
  · intro k hk1 hk2
    have hre : 1 + (k - 1) = k := by omega
    have := hall (k - 1) (by omega)
    rwa [hre] at this
  · simp only [generate_unique_filename, if_pos h]
    exact heq

/-! ## Step lemmas for the upload loop -/

theorem uploadFiles_nil (env : Env) (skip : Bool) (hashes : List String) :
    uploadFiles env skip hashes [] = (.ok ([], [], []), []) := rfl

theorem uploadFiles_cons_dup (env : Env) (skip : Bool) (hashes : List String)
    (f : FileRecord) (rest : List FileRecord) (h : isDupHash hashes f = true) :
    uploadFiles env skip hashes (f :: rest) =
      ((uploadFiles env skip hashes rest).1.map (fun t => (t.1, t.2.1, dupSkipResult f :: t.2.2)),
       (uploadFiles env skip hashes rest).2) := by
  rcases hrec : uploadFiles env skip hashes rest with ⟨r, tr⟩
  cases r with
  | ok v =>
    obtain ⟨toks, mapping, results⟩ := v
    simp [uploadFiles, h, hrec, Except.map]
  | error e =>
    simp [uploadFiles, h, hrec, Except.map]

theorem uploadFiles_cons_download_err_skip (env : Env) (hashes : List String)
    (f : FileRecord) (rest : List FileRecord) (e : String)
    (h : isDupHash hashes f = false) (hd : env.download_file f.id = .error e) :
    uploadFiles env true hashes (f :: rest) =
      ((uploadFiles env true hashes rest).1.map
         (fun t => (t.1, t.2.1, uploadErrorResult f e :: t.2.2)),
       Event.download f.id :: (uploadFiles env true hashes rest).2) := by
  rcases hrec : uploadFiles env true hashes rest with ⟨r, tr⟩
  cases r with
  | ok v =>
    obtain ⟨toks, mapping, results⟩ := v
    simp [uploadFiles, h, hd, hrec, Except.map]
  | error e' =>
    simp [uploadFiles, h, hd, hrec, Except.map]

theorem uploadFiles_cons_download_err_abort (env : Env) (hashes : List String)
    (f : FileRecord) (rest : List FileRecord) (e : String)
    (h : isDupHash hashes f = false) (hd : env.download_file f.id = .error e) :
    uploadFiles env false hashes (f :: rest) = (.error e, [Event.download f.id]) := by
  simp [uploadFiles, h, hd]

theorem uploadFiles_cons_upload_err_skip (env : Env) (hashes : List String)
    (f : FileRecord) (rest : List FileRecord) (content : List Nat) (e : String)
    (h : isDupHash hashes f = false) (hd : env.download_file f.id = .ok content)
    (hu : env.upload_media content f.name = .error e) :
    uploadFiles env true hashes (f :: rest) =
      ((uploadFiles env true hashes rest).1.map
         (fun t => (t.1, t.2.1, uploadErrorResult f e :: t.2.2)),
       Event.download f.id :: Event.upload f.name :: (uploadFiles env true hashes rest).2) := by
  rcases hrec : uploadFiles env true hashes rest with ⟨r, tr⟩
  cases r with
  | ok v =>
    obtain ⟨toks, mapping, results⟩ := v
    simp [uploadFiles, h, hd, hu, hrec, Except.map]
  | error e' =>
    simp [uploadFiles, h, hd, hu, hrec, Except.map]

theorem uploadFiles_cons_upload_err_abort (env : Env) (hashes : List String)
    (f : FileRecord) (rest : List FileRecord) (content : List Nat) (e : String)
    (h : isDupHash hashes f = false) (hd : env.download_file f.id = .ok content)
    (hu : env.upload_media content f.name = .error e) :
    uploadFiles env false hashes (f :: rest) =
      (.error e, [Event.download f.id, Event.upload f.name]) := by
  simp [uploadFiles, h, hd, hu]

theorem uploadFiles_cons_staged (env : Env) (skip : Bool) (hashes : List String)
    (f : FileRecord) (rest : List FileRecord) (content : List Nat) (token : String)
    (h : isDupHash hashes f = false) (hd : env.download_file f.id = .ok content)
    (hu : env.upload_media content f.name = .ok token) :
    uploadFiles env skip hashes (f :: rest) =
      ((uploadFiles env skip hashes rest).1.map
         (fun t => ((token, f.name) :: t.1, f :: t.2.1, t.2.2)),
       Event.download f.id :: Event.upload f.name :: (uploadFiles env skip hashes rest).2) := by
  rcases hrec : uploadFiles env skip hashes rest with ⟨r, tr⟩
  cases r with
  | ok v =>
    obtain ⟨toks, mapping, results⟩ := v
    simp [uploadFiles, h, hd, hu, hrec, Except.map]
  | error e' =>
    simp [uploadFiles, h, hd, hu, hrec, Except.map]

theorem uploadFiles_ok_shape (env : Env) (skip : Bool) (hashes : List String) :
    ∀ (files : List FileRecord) (toks : List (String × String)) (mapping : List FileRecord)
      (res : List SyncResult) (tr : List Event),
      uploadFiles env skip hashes files = (.ok (toks, mapping, res), tr) →
      List.Perm (files.map FileRecord.name)
        (res.map SyncResult.filename ++ mapping.map FileRecord.name) ∧
      (∀ r ∈ res, r.status = "skipped" ∨ r.status = "error") ∧
      mapping.length = toks.length := by
  intro files
  induction files with
  | nil =>
    intro toks mapping res tr h
    rw [uploadFiles_nil] at h
    simp only [Prod.mk.injEq, Except.ok.injEq] at h
    obtain ⟨⟨h1, h2, h3⟩, h4⟩ := h
    subst h1; subst h2; subst h3
    simp
  | cons f rest ih =>
    intro toks mapping res tr h
    cases hdup : isDupHash hashes f with
    | true =>
      rw [uploadFiles_cons_dup env skip hashes f rest hdup] at h
      rcases hrec : uploadFiles env skip hashes rest with ⟨r, tr'⟩
      rw [hrec] at h
      cases r with
      | error e => simp [Except.map] at h
      | ok v =>
        obtain ⟨toks', mapping', res'⟩ := v
        simp only [Except.map, Prod.mk.injEq, Except.ok.injEq] at h
        obtain ⟨⟨h1, h2, h3⟩, h4⟩ := h
        subst h1; subst h2; subst h3
        obtain ⟨hperm, hstat, hlen⟩ := ih toks' mapping' res' tr' hrec
        refine ⟨?_, ?_, hlen⟩
        · simpa [dupSkipResult] using hperm.cons f.name
        · intro r hr
          rcases List.mem_cons.mp hr with hr | hr
          · subst hr; left; rfl
          · exact hstat r hr
    | false =>
      cases hd : env.download_file f.id with
      | error e =>
        cases skip with
        | false =>
          rw [uploadFiles_cons_download_err_abort env hashes f rest e hdup hd] at h
          simp at h
        | true =>
          rw [uploadFiles_cons_download_err_skip env hashes f rest e hdup hd] at h
          rcases hrec : uploadFiles env true hashes rest with ⟨r, tr'⟩
          rw [hrec] at h
          cases r with
          | error e' => simp [Except.map] at h
          | ok v =>
            obtain ⟨toks', mapping', res'⟩ := v
            simp only [Except.map, Prod.mk.injEq, Except.ok.injEq] at h
            obtain ⟨⟨h1, h2, h3⟩, h4⟩ := h
            subst h1; subst h2; subst h3
            obtain ⟨hperm, hstat, hlen⟩ := ih toks' mapping' res' tr' hrec
            refine ⟨?_, ?_, hlen⟩
            · simpa [uploadErrorResult] using hperm.cons f.name
            · intro r hr
              rcases List.mem_cons.mp hr with hr | hr
              · subst hr; right; rfl
              · exact hstat r hr
      | ok content =>
        cases hu : env.upload_media content f.name with
        | error e =>
          cases skip with
          | false =>
            rw [uploadFiles_cons_upload_err_abort env hashes f rest content e hdup hd hu] at h
            simp at h
          | true =>
            rw [uploadFiles_cons_upload_err_skip env hashes f rest content e hdup hd hu] at h
            rcases hrec : uploadFiles env true hashes rest with ⟨r, tr'⟩
            rw [hrec] at h
            cases r with
            | error e' => simp [Except.map] at h
            | ok v =>
              obtain ⟨toks', mapping', res'⟩ := v
              simp only [Except.map, Prod.mk.injEq, Except.ok.injEq] at h
              obtain ⟨⟨h1, h2, h3⟩, h4⟩ := h
              subst h1; subst h2; subst h3
              obtain ⟨hperm, hstat, hlen⟩ := ih toks' mapping' res' tr' hrec
              refine ⟨?_, ?_, hlen⟩
              · simpa [uploadErrorResult] using hperm.cons f.name
              · intro r hr
                rcases List.mem_cons.mp hr with hr | hr
                · subst hr; right; rfl
                · exact hstat r hr
        | ok token =>
          rw [uploadFiles_cons_staged env skip hashes f rest content token hdup hd hu] at h
          rcases hrec : uploadFiles env skip hashes rest with ⟨r, tr'⟩
          rw [hrec] at h
          cases r with
          | error e' => simp [Except.map] at h
          | ok v =>
            obtain ⟨toks', mapping', res'⟩ := v
            simp only [Except.map, Prod.mk.injEq, Except.ok.injEq] at h
            obtain ⟨⟨h1, h2, h3⟩, h4⟩ := h
            subst h1; subst h2; subst h3
            obtain ⟨hperm, hstat, hlen⟩ := ih toks' mapping' res' tr' hrec
            refine ⟨?_, hstat, by simp [hlen]⟩
            simp only [List.map_cons]
            exact (hperm.cons f.name).trans List.perm_middle.symm

theorem uploadFiles_events (env : Env) (skip : Bool) (hashes : List String) :
    ∀ (files : List FileRecord) (ev : Event), ev ∈ (uploadFiles env skip hashes files).2 →
      (∃ f ∈ files, ev = Event.download f.id) ∨ ∃ f ∈ files, ev = Event.upload f.name := by
  intro files
  induction files with
  | nil => intro ev hev; rw [uploadFiles_nil] at hev; simp at hev
  | cons f rest ih =>
    intro ev hev
    have lift :
        ((∃ g ∈ rest, ev = Event.download g.id) ∨ ∃ g ∈ rest, ev = Event.upload g.name) →
        (∃ g ∈ f :: rest, ev = Event.download g.id) ∨
          ∃ g ∈ f :: rest, ev = Event.upload g.name := by
      rintro (⟨g, hg, rfl⟩ | ⟨g, hg, rfl⟩)
      · exact Or.inl ⟨g, List.mem_cons_of_mem f hg, rfl⟩
      · exact Or.inr ⟨g, List.mem_cons_of_mem f hg, rfl⟩
    cases hdup : isDupHash hashes f with
    | true =>
      rw [uploadFiles_cons_dup env skip hashes f rest hdup] at hev
      exact lift (ih ev hev)
    | false =>
      cases hd : env.download_file f.id with
      | error e =>
        cases skip with
        | false =>
          rw [uploadFiles_cons_download_err_abort env hashes f rest e hdup hd] at hev
          simp only [List.mem_singleton] at hev
          exact Or.inl ⟨f, List.mem_cons_self f rest, hev⟩
        | true =>
          rw [uploadFiles_cons_download_err_skip env hashes f rest e hdup hd] at hev
          rcases List.mem_cons.mp hev with hev | hev
          · exact Or.inl ⟨f, List.mem_cons_self f rest, hev⟩
          · exact lift (ih ev hev)
      | ok content =>
        cases hu : env.upload_media content f.name with
        | error e =>
          cases skip with
          | false =>
            rw [uploadFiles_cons_upload_err_abort env hashes f rest content e hdup hd hu] at hev
            rcases List.mem_cons.mp hev with hev | hev
            · exact Or.inl ⟨f, List.mem_cons_self f rest, hev⟩
            · simp only [List.mem_singleton] at hev
              exact Or.inr ⟨f, List.mem_cons_self f rest, hev⟩
          | true =>
            rw [uploadFiles_cons_upload_err_skip env hashes f rest content e hdup hd hu] at hev
            rcases List.mem_cons.mp hev with hev | hev
            · exact Or.inl ⟨f, List.mem_cons_self f rest, hev⟩
            · rcases List.mem_cons.mp hev with hev | hev
              · exact Or.inr ⟨f, List.mem_cons_self f rest, hev⟩
              · exact lift (ih ev hev)
        | ok token =>
          rw [uploadFiles_cons_staged env skip hashes f rest content token hdup hd hu] at hev
          rcases List.mem_cons.mp hev with hev | hev
          · exact Or.inl ⟨f, List.mem_cons_self f rest, hev⟩
          · rcases List.mem_cons.mp hev with hev | hev
            · exact Or.inr ⟨f, List.mem_cons_self f rest, hev⟩
            · exact lift (ih ev hev)

/-! ## Commit-phase lemmas -/

theorem createAndAdd_create_err_skip (env : Env) (tokens : List (String × String))
    (mapping : List FileRecord) (album_id : String) (hashes : List String) (e : String)
    (hc : env.batch_create_media_items tokens = .error e) :
    createAndAddMediaItems env true tokens mapping album_id hashes =
      (.ok (mapping.map (commitErrorResult e), hashes), [Event.batchCreate tokens.length]) := by
  simp [createAndAddMediaItems, hc]

theorem createAndAdd_create_err_abort (env : Env) (tokens : List (String × String))
    (mapping : List FileRecord) (album_id : String) (hashes : List String) (e : String)
    (hc : env.batch_create_media_items tokens = .error e) :
    createAndAddMediaItems env false tokens mapping album_id hashes =
      (.error e, [Event.batchCreate tokens.length]) := by
  simp [createAndAddMediaItems, hc]

theorem createAndAdd_add_err_skip (env : Env) (tokens : List (String × String))
    (mapping : List FileRecord) (album_id : String) (hashes : List String)
    (ids : List String) (e : String)
    (hc : env.batch_create_media_items tokens = .ok ids)
    (ha : env.batch_add_media_to_album album_id ids = .error e) :
    createAndAddMediaItems env true tokens mapping album_id hashes =
      (.ok (mapping.map (commitErrorResult e), hashes),
       [Event.batchCreate tokens.length, Event.batchAdd ids.length]) := by
  simp [createAndAddMediaItems, hc, ha]

theorem createAndAdd_add_err_abort (env : Env) (tokens : List (String × String))
    (mapping : List FileRecord) (album_id : String) (hashes : List String)
    (ids : List String) (e : String)
    (hc : env.batch_create_media_items tokens = .ok ids)
    (ha : env.batch_add_media_to_album album_id ids = .error e) :
    createAndAddMediaItems env false tokens mapping album_id hashes =
      (.error e, [Event.batchCreate tokens.length, Event.batchAdd ids.length]) := by
  simp [createAndAddMediaItems, hc, ha]

theorem createAndAdd_success (env : Env) (skip : Bool) (tokens : List (String × String))
    (mapping : List FileRecord) (album_id : String) (hashes : List String) (ids : List String)
    (hc : env.batch_create_media_items tokens = .ok ids)
    (ha : env.batch_add_media_to_album album_id ids = .ok ()) :
    createAndAddMediaItems env skip tokens mapping album_id hashes =
      (.ok (mapping.map (commitSuccessResult env), addHashes mapping hashes),
       [Event.batchCreate tokens.length, Event.batchAdd ids.length]) := by
  simp [createAndAddMediaItems, hc, ha]

theorem pyTruthyStr_iff (o : Option String) :
    pyTruthyStr o = true ↔ ∃ s, o = some s ∧ s ≠ "" := by
  cases o with
  | none => simp [pyTruthyStr]
  | some s => simp [pyTruthyStr]

theorem addHash_mem (a h : String) (hs : List String) :
    a ∈ addHash h hs ↔ a ∈ hs ∨ a = h := by
  by_cases hmem : h ∈ hs
  · simp only [addHash, if_pos hmem]
    constructor
    · exact Or.inl
    · rintro (ha | rfl)
      · exact ha
      · exact hmem
  · simp [addHash, if_neg hmem]

theorem addHashes_mem : ∀ (mapping : List FileRecord) (hs : List String) (a : String),
    a ∈ addHashes mapping hs ↔
      a ∈ hs ∨ ∃ f ∈ mapping, f.md5Checksum = some a ∧ a ≠ "" := by
  intro mapping
  induction mapping with
  | nil => intro hs a; simp [addHashes]
  | cons f fs ih =>
    intro hs a
    show a ∈ addHashes fs (if pyTruthyStr f.md5Checksum then
        addHash (f.md5Checksum.getD "") hs else hs) ↔ _
    cases htr : pyTruthyStr f.md5Checksum with
    | true =>
      obtain ⟨s, hsome, hne⟩ := (pyTruthyStr_iff f.md5Checksum).mp htr
      rw [if_pos rfl, ih]
      simp only [hsome, Option.getD_some, addHash_mem, List.mem_cons]
      constructor
      · rintro ((ha | rfl) | ⟨g, hg, hmd, hne'⟩)
        · exact Or.inl ha
        · exact Or.inr ⟨f, Or.inl rfl, hsome, hne⟩
        · exact Or.inr ⟨g, Or.inr hg, hmd, hne'⟩
      · rintro (ha | ⟨g, (rfl | hg), hmd, hne'⟩)
        · exact Or.inl (Or.inl ha)
        · rw [hsome] at hmd
          obtain rfl : s = a := Option.some.inj hmd
          exact Or.inl (Or.inr rfl)
        · exact Or.inr ⟨g, hg, hmd, hne'⟩
    | false =>
      rw [if_neg (by simp [htr]), ih]
      simp only [List.mem_cons]
      constructor
      · rintro (ha | ⟨g, hg, hmd, hne'⟩)
        · exact Or.inl ha
        · exact Or.inr ⟨g, Or.inr hg, hmd, hne'⟩
      · rintro (ha | ⟨g, (rfl | hg), hmd, hne'⟩)
        · exact Or.inl ha
        · exfalso
          rw [hmd] at htr
          simp [pyTruthyStr] at htr
          exact hne' htr
        · exact Or.inr ⟨g, hg, hmd, hne'⟩

theorem createAndAdd_ok_shape (env : Env) (skip : Bool) (tokens : List (String × String))
    (mapping : List FileRecord) (album_id : String) (hashes : List String)
    (res2 : List SyncResult) (h2 : List String) (tr2 : List Event)
    (h : createAndAddMediaItems env skip tokens mapping album_id hashes = (.ok (res2, h2), tr2)) :
    res2.map SyncResult.filename = mapping.map FileRecord.name ∧
    ∀ r ∈ res2, r.status = "success" ∨ r.status = "error" := by
  cases hc : env.batch_create_media_items tokens with
  | error e =>
    cases skip with
    | false =>
      rw [createAndAdd_create_err_abort env tokens mapping album_id hashes e hc] at h
      simp at h
    | true =>
      rw [createAndAdd_create_err_skip env tokens mapping album_id hashes e hc] at h
      simp only [Prod.mk.injEq, Except.ok.injEq] at h
      obtain ⟨⟨h1, -⟩, -⟩ := h
      subst h1
      refine ⟨by simp [commitErrorResult], ?_⟩
      intro r hr
      obtain ⟨g, -, rfl⟩ := List.mem_map.mp hr
      right; rfl
  | ok ids =>
    cases ha : env.batch_add_media_to_album album_id ids with
    | error e =>
      cases skip with
      | false =>
        rw [createAndAdd_add_err_abort env tokens mapping album_id hashes ids e hc ha] at h
        simp at h
      | true =>
        rw [createAndAdd_add_err_skip env tokens mapping album_id hashes ids e hc ha] at h
        simp only [Prod.mk.injEq, Except.ok.injEq] at h
        obtain ⟨⟨h1, -⟩, -⟩ := h
        subst h1
        refine ⟨by simp [commitErrorResult], ?_⟩
        intro r hr
        obtain ⟨g, -, rfl⟩ := List.mem_map.mp hr
        right; rfl
    | ok u =>
      cases u
      rw [createAndAdd_success env skip tokens mapping album_id hashes ids hc ha] at h
      simp only [Prod.mk.injEq, Except.ok.injEq] at h
      obtain ⟨⟨h1, -⟩, -⟩ := h
      subst h1
      refine ⟨by simp [commitSuccessResult], ?_⟩
      intro r hr
      obtain ⟨g, -, rfl⟩ := List.mem_map.mp hr
      left; rfl

theorem processFiles_ok_shape (env : Env) (skip : Bool) (album_id : String)
    (hashes : List String) (files : List FileRecord) (res : List SyncResult)
    (h' : List String) (tr : List Event)
    (h : processFiles env skip album_id hashes files = (.ok (res, h'), tr)) :
    List.Perm (files.map FileRecord.name) (res.map SyncResult.filename) ∧
    ∀ r ∈ res, r.status = "success" ∨ r.status = "skipped" ∨ r.status = "error" := by
  rcases hup : uploadFiles env skip hashes files with ⟨r1, tr1⟩
  cases r1 with
  | error e =>
    simp only [processFiles, hup] at h
    simp at h
  | ok v =>
    obtain ⟨tokens, mapping, results1⟩ := v
    obtain ⟨hperm, hstat, hlen⟩ :=
      uploadFiles_ok_shape env skip hashes files tokens mapping results1 tr1 hup
    simp only [processFiles, hup] at h
    cases hemp : tokens.isEmpty with
    | true =>
      rw [hemp] at h
      simp only [if_pos] at h
      simp only [Prod.mk.injEq, Except.ok.injEq] at h
      obtain ⟨⟨h1, -⟩, -⟩ := h
      subst h1
      have hmapnil : mapping = [] := by
        have htok : tokens = [] := List.isEmpty_iff.mp hemp
        subst htok
        exact List.length_eq_zero.mp hlen
      subst hmapnil
      refine ⟨by simpa using hperm, ?_⟩
      intro r hr
      rcases hstat r hr with hs | hs
      · exact Or.inr (Or.inl hs)
      · exact Or.inr (Or.inr hs)
    | false =>
      rw [hemp] at h
      simp only [Bool.false_eq_true, if_false] at h
      rcases hca : createAndAddMediaItems env skip tokens mapping album_id hashes with ⟨r2, tr2⟩
      rw [hca] at h
      cases r2 with
      | error e => simp at h
      | ok v2 =>
        obtain ⟨results2, hashes2⟩ := v2
        simp only [Prod.mk.injEq, Except.ok.injEq] at h
        obtain ⟨⟨h1, -⟩, -⟩ := h
        subst h1
        obtain ⟨hmapeq, hstat2⟩ :=
          createAndAdd_ok_shape env skip tokens mapping album_id hashes results2 hashes2 tr2 hca
        constructor
        · rw [List.map_append, hmapeq]
          exact hperm
        · intro r hr
          rcases List.mem_append.mp hr with hr | hr
          · rcases hstat r hr with hs | hs
            · exact Or.inr (Or.inl hs)
            · exact Or.inr (Or.inr hs)
          · rcases hstat2 r hr with hs | hs
            · exact Or.inl hs
            · exact Or.inr (Or.inr hs)

/-! ## Counting and batching lemmas -/

theorem countResults_cons (r : SyncResult) (rs : List SyncResult) (s k e : Nat) :
    countResults (r :: rs) (s, k, e) =
      if r.status == "success" then countResults rs (s + 1, k, e)
      else if r.status == "skipped" then countResults rs (s, k + 1, e)
      else countResults rs (s, k, e + 1) := rfl

theorem countResults_sum : ∀ (res : List SyncResult) (s k e : Nat),
    (countResults res (s, k, e)).1 + (countResults res (s, k, e)).2.1 +
      (countResults res (s, k, e)).2.2 = s + k + e + res.length := by
  intro res
  induction res with
  | nil => intro s k e; simp [countResults]
  | cons r rs ih =>
    intro s k e
    rw [countResults_cons]
    split
    · rw [ih]; simp; omega
    · split
      · rw [ih]; simp; omega
      · rw [ih]; simp; omega

theorem toBatchesGo_flatten (bs : Nat) (hbs : 0 < bs) : ∀ (fuel : Nat) (l : List FileRecord),
    l.length ≤ fuel → (toBatchesGo bs fuel l).flatten = l := by
  intro fuel
  induction fuel with
  | zero =>
    intro l hl
    have : l = [] := List.eq_nil_of_length_eq_zero (by omega)
    subst this; rfl
  | succ fuel ih =>
    intro l hl
    cases l with
    | nil => rfl
    | cons a l' =>
      show ((a :: l').take bs :: toBatchesGo bs fuel ((a :: l').drop bs)).flatten = a :: l'
      rw [List.flatten_cons]
      have hdl : ((a :: l').drop bs).length ≤ fuel := by
        rw [List.length_drop]
        have hcl : (a :: l').length = l'.length + 1 := by simp
        omega
      rw [ih ((a :: l').drop bs) hdl]
      exact List.take_append_drop bs (a :: l')

theorem toBatches_flatten (bs : Nat) (hbs : 0 < bs) (l : List FileRecord) :
    (toBatches bs l).flatten = l :=
  toBatchesGo_flatten bs hbs l.length l le_rfl

theorem processBatchesGo_counts (env : Env) (skip : Bool) (album_id : String) :
    ∀ (batches : List (List FileRecord)) (hashes : List String) (s k e s' k' e' : Nat)
      (tr : List Event),
      processBatchesGo env skip album_id batches hashes (s, k, e) = (.ok (s', k', e'), tr) →
      s' + k' + e' = s + k + e + (batches.map List.length).sum := by
  intro batches
  induction batches with
  | nil =>
    intro hashes s k e s' k' e' tr h
    simp only [processBatchesGo, Prod.mk.injEq, Except.ok.injEq] at h
    obtain ⟨⟨h1, h2, h3⟩, -⟩ := h
    subst h1; subst h2; subst h3
    simp
  | cons batch rest ih =>
    intro hashes s k e s' k' e' tr h
    rcases hpf : processFiles env skip album_id hashes batch with ⟨r1, tr1⟩
    cases r1 with
    | error er =>
      simp only [processBatchesGo, hpf] at h
      simp at h
    | ok v =>
      obtain ⟨results, hashes2⟩ := v
      simp only [processBatchesGo, hpf] at h
      rcases hc : countResults results (s, k, e) with ⟨s2, k2, e2⟩
      rw [hc] at h
      rcases hgo : processBatchesGo env skip album_id rest hashes2 (s2, k2, e2) with ⟨r2, tr2⟩
      rw [hgo] at h
      cases r2 with
      | error er => simp at h
      | ok v2 =>
        obtain ⟨s3, k3, e3⟩ := v2
        simp only [Prod.mk.injEq, Except.ok.injEq] at h
        obtain ⟨⟨h1, h2, h3⟩, -⟩ := h
        subst h1; subst h2; subst h3
        have hsum := ih hashes2 s2 k2 e2 s3 k3 e3 tr2 hgo
        have hcsum := countResults_sum results s k e
        rw [hc] at hcsum
        simp only at hcsum
        have hlen : batch.length = results.length := by
          obtain ⟨hperm, -⟩ :=
            processFiles_ok_shape env skip album_id hashes batch results hashes2 tr1 hpf
          simpa using hperm.length_eq
        simp only [List.map_cons, List.sum_cons]
        omega

/-! ## Trace-shape lemmas: the batch pipeline emits only service-call and
print events, never log or browser events -/

/-- Events that the batch pipeline can emit. -/
def isPipelineEvent (ev : Event) : Prop :=
  (∃ i, ev = Event.download i) ∨ (∃ n, ev = Event.upload n) ∨
    (∃ n, ev = Event.batchCreate n) ∨ (∃ n, ev = Event.batchAdd n) ∨
    ∃ r, ev = Event.printResult r

theorem createAndAdd_events (env : Env) (skip : Bool) (tokens : List (String × String))
    (mapping : List FileRecord) (album_id : String) (hashes : List String) (ev : Event)
    (hev : ev ∈ (createAndAddMediaItems env skip tokens mapping album_id hashes).2) :
    isPipelineEvent ev := by
  cases hc : env.batch_create_media_items tokens with
  | error e =>
    simp only [createAndAddMediaItems, hc, List.mem_singleton] at hev
    exact Or.inr (Or.inr (Or.inl ⟨tokens.length, hev⟩))
  | ok ids =>
    cases ha : env.batch_add_media_to_album album_id ids with
    | error e =>
      simp only [createAndAddMediaItems, hc, ha, List.mem_cons, List.mem_singleton,
        List.not_mem_nil, or_false] at hev
      rcases hev with hev | hev
      · exact Or.inr (Or.inr (Or.inl ⟨tokens.length, hev⟩))
      · exact Or.inr (Or.inr (Or.inr (Or.inl ⟨ids.length, hev⟩)))
    | ok u =>
      cases u
      simp only [createAndAddMediaItems, hc, ha, List.mem_cons, List.mem_singleton,
        List.not_mem_nil, or_false] at hev
      rcases hev with hev | hev
      · exact Or.inr (Or.inr (Or.inl ⟨tokens.length, hev⟩))
      · exact Or.inr (Or.inr (Or.inr (Or.inl ⟨ids.length, hev⟩)))

theorem processFiles_events (env : Env) (skip : Bool) (album_id : String)
    (hashes : List String) (files : List FileRecord) (ev : Event)
    (hev : ev ∈ (processFiles env skip album_id hashes files).2) :
    isPipelineEvent ev := by
  have upcase : ev ∈ (uploadFiles env skip hashes files).2 → isPipelineEvent ev := by
    intro hup
    rcases uploadFiles_events env skip hashes files ev hup with ⟨f, -, rfl⟩ | ⟨f, -, rfl⟩
    · exact Or.inl ⟨f.id, rfl⟩
    · exact Or.inr (Or.inl ⟨f.name, rfl⟩)
  rcases hup : uploadFiles env skip hashes files with ⟨r1, tr1⟩
  cases r1 with
  | error e =>
    simp only [processFiles, hup] at hev
    exact upcase (by rw [hup]; exact hev)
  | ok v =>
    obtain ⟨tokens, mapping, results1⟩ := v
    simp only [processFiles, hup] at hev
    cases hemp : tokens.isEmpty with
    | true =>
      rw [hemp] at hev
      simp only [if_pos] at hev
      exact upcase (by rw [hup]; exact hev)
    | false =>
      rw [hemp] at hev
      simp only [Bool.false_eq_true, if_false] at hev
      rcases hca : createAndAddMediaItems env skip tokens mapping album_id hashes with ⟨r2, tr2⟩
      rw [hca] at hev
      cases r2 with
      | error e =>
        rcases List.mem_append.mp hev with hev | hev
        · exact upcase (by rw [hup]; exact hev)
        · exact createAndAdd_events env skip tokens mapping album_id hashes ev
            (by rw [hca]; exact hev)
      | ok v2 =>
        obtain ⟨results2, hashes2⟩ := v2
        rcases List.mem_append.mp hev with hev | hev
        · exact upcase (by rw [hup]; exact hev)
        · exact createAndAdd_events env skip tokens mapping album_id hashes ev
            (by rw [hca]; exact hev)

theorem processBatchesGo_events (env : Env) (skip : Bool) (album_id : String) :
    ∀ (batches : List (List FileRecord)) (hashes : List String) (counts : Nat × Nat × Nat)
      (ev : Event), ev ∈ (processBatchesGo env skip album_id batches hashes counts).2 →
      isPipelineEvent ev := by
  intro batches
  induction batches with
  | nil => intro hashes counts ev hev; simp [processBatchesGo] at hev
  | cons batch rest ih =>
    intro hashes counts ev hev
    obtain ⟨s, k, e⟩ := counts
    rcases hpf : processFiles env skip album_id hashes batch with ⟨r1, tr1⟩
    cases r1 with
    | error er =>
      simp only [processBatchesGo, hpf] at hev
      exact processFiles_events env skip album_id hashes batch ev (by rw [hpf]; exact hev)
    | ok v =>
      obtain ⟨results, hashes2⟩ := v
      simp only [processBatchesGo, hpf] at hev
      rcases hgo : processBatchesGo env skip album_id rest hashes2
          (countResults results (s, k, e)) with ⟨r2, tr2⟩
      rw [hgo] at hev
      rcases List.mem_append.mp hev with hev | hev
      · rcases List.mem_append.mp hev with hev | hev
        · exact processFiles_events env skip album_id hashes batch ev (by rw [hpf]; exact hev)
        · obtain ⟨r, -, rfl⟩ := List.mem_map.mp hev
          exact Or.inr (Or.inr (Or.inr (Or.inr ⟨r, rfl⟩)))
      · have := ih hashes2 (countResults results (s, k, e)) ev (by rw [hgo]; exact hev)
        exact this

/-! ## Retry cascade -/

theorem retryCall_cascade {α : Type} (o : Nat → Except String α) :
    retryCall o 2 = specRetryPolicy o := by
  cases h0 : o 0 with
  | ok a => simp [retryCall, retryGo, specRetryPolicy, h0]
  | error e0 =>
    cases h1 : o 1 with
    | ok a => simp [retryCall, retryGo, specRetryPolicy, h0, h1]
    | error e1 =>
      cases h2 : o 2 with
      | ok a => simp [retryCall, retryGo, specRetryPolicy, h0, h1, h2]
      | error e2 => simp [retryCall, retryGo, specRetryPolicy, h0, h1, h2]

/-! ## Concrete instances used by counterexamples and witnesses -/

/-- The per-file results printed by `_process_files_in_batches`, read back
from a trace. -/
def printedResults (tr : List Event) : List SyncResult :=
  tr.filterMap (fun e => match e with | Event.printResult r => some r | _ => none)

/-- A fully cooperative environment: every service call succeeds, the album
is empty, the size formatter renders the byte count in decimal. -/
def okEnv : Env where
  download_file := fun _ => .ok [1]
  upload_media := fun _ name => .ok ("tok_" ++ name)
  batch_create_media_items := fun toks => .ok (toks.map (fun p => "item_" ++ p.2))
  batch_add_media_to_album := fun _ _ => .ok ()
  get_or_create_album := fun n => .ok ("alb_" ++ n)
  webbrowser_open := fun _ => .ok ()
  list_files_recursive := fun _ =>
    [{ id := "f1", name := "a.jpg", mimeType := "image/jpeg", size := some 5,
       md5Checksum := some "h1" }]
  album_media_items := fun _ => []
  re_compile := fun _ => none
  format_file_size := fun n => Nat.repr n

/-- A media file record used throughout the concrete runs. -/
def c1file : FileRecord :=
  { id := "f1", name := "a.jpg", mimeType := "image/jpeg", size := some 5,
    md5Checksum := some "h1" }

/-- Environment whose target album already contains the very item reference
the commit returns for `a.jpg`. -/
def c1env : Env :=
  { okEnv with album_media_items := fun _ => [{ id := "item_a.jpg", filename := "a.jpg" }] }

/-- Two distinct files with the same content-hash. -/
def c2fileA : FileRecord :=
  { id := "fa", name := "a.jpg", mimeType := "image/jpeg", size := some 3,
    md5Checksum := some "h" }

/-- Second file with the same content-hash as `c2fileA`. -/
def c2fileB : FileRecord :=
  { id := "fb", name := "b.jpg", mimeType := "image/jpeg", size := some 4,
    md5Checksum := some "h" }

/-- Environment whose target album already uses the names a.jpg, a_1.jpg
and a_2.jpg. -/
def c3env : Env :=
  { okEnv with album_media_items := fun _ =>
      [{ id := "m0", filename := "a.jpg" }, { id := "m1", filename := "a_1.jpg" },
       { id := "m2", filename := "a_2.jpg" }] }

/-- Environment whose browser open always fails. -/
def c4env : Env :=
  { okEnv with webbrowser_open := fun _ => .error "browser failed" }

/-- Environment whose Drive folder is empty. -/
def c5env : Env :=
  { okEnv with list_files_recursive := fun _ => [] }

/-- 120 filtered media files named n0 .. n119. -/
def c7files : List FileRecord :=
  (List.range 120).map (fun i =>
    { id := "f" ++ Nat.repr i, name := "n" ++ Nat.repr i, mimeType := "image/jpeg" })

/-- Batched create oracle that fails exactly when the batch contains the
file named n50 (i.e. only for batch 2 of `c7files`). -/
def c7batchCreate (toks : List (String × String)) : Except String (List String) :=
  if toks.any (fun p => p.2 == "n50") then Except.error "commit failed"
  else Except.ok (toks.map (fun p => "item_" ++ p.2))

/-- Environment whose batched create call fails exactly for batch 2 of
`c7files`. -/
def c7env : Env :=
  { okEnv with batch_create_media_items := c7batchCreate }

/-! ## Claims -/

/-- C9: with a minimum (KB) and/or maximum (MB) configured, the size filter
keeps exactly the records whose reported size lies in the inclusive range
[min KB, max MB] and drops every record with no reported size; concretely a
1500000-byte record passes min 1 KB / max 5 MB, a 500-byte record fails
min 1 KB, a 10000000-byte record fails max 5 MB, the bounds 1024 and
5242880 bytes are kept (inclusive), and a record with no size is dropped. -/
theorem c9_size_filter_inclusive :
    (∀ (files : List FileRecord) (mi ma : Nat), 0 < mi → 0 < ma →
      filter_files_by_size files (some mi) (some ma) =
        files.filter (fun f =>
          match f.size with
          | some s => decide (mi * 1024 ≤ s ∧ s ≤ ma * 1024 * 1024)
          | none => false)) ∧
    filter_files_by_size [{ id := "r1", name := "r1.jpg", size := some 1500000 }]
        (some 1) (some 5) = [{ id := "r1", name := "r1.jpg", size := some 1500000 }] ∧
    filter_files_by_size [{ id := "r2", name := "r2.jpg", size := some 500 }]
        (some 1) none = [] ∧
    filter_files_by_size [{ id := "r3", name := "r3.jpg", size := some 10000000 }]
        none (some 5) = [] ∧
    filter_files_by_size [{ id := "r4", name := "r4.jpg", size := some 1024 }]
        (some 1) (some 5) = [{ id := "r4", name := "r4.jpg", size := some 1024 }] ∧
    filter_files_by_size [{ id := "r5", name := "r5.jpg", size := some 5242880 }]
        (some 1) (some 5) = [{ id := "r5", name := "r5.jpg", size := some 5242880 }] ∧
    filter_files_by_size [{ id := "r6", name := "r6.jpg", size := none }]
        (some 1) (some 5) = [] := by
  refine ⟨?_, rfl, rfl, rfl, rfl, rfl, rfl⟩
  intro files mi ma hmi hma
  apply List.filter_congr
  intro f hf
  cases hs : f.size with
  | none => simp [hs]
  | some s =>
    simp only [hs, pyTruthyNat]
    have h1 : (mi != 0) = true := by simp; omega
    have h2 : (ma != 0) = true := by simp; omega
    simp only [h1, h2, Option.getD_some, Bool.true_and]
    by_cases hlt : s < mi * 1024
    · rw [if_pos (by simpa using hlt)]
      have hn : ¬(mi * 1024 ≤ s ∧ s ≤ ma * 1024 * 1024) := by omega
      simp [hn]
    · by_cases hgt : s > ma * 1024 * 1024
      · rw [if_neg (by simpa using hlt), if_pos (by simpa using hgt)]
        have hn : ¬(mi * 1024 ≤ s ∧ s ≤ ma * 1024 * 1024) := by omega
        simp [hn]
      · rw [if_neg (by simpa using hlt), if_neg (by simpa using hgt)]
        have hy : mi * 1024 ≤ s ∧ s ≤ ma * 1024 * 1024 := by omega
        simp [hy]

/-- Witness for C9: the general range characterisation applied to the
1500000-byte record with min 1 KB and max 5 MB. -/
theorem c9_witness :
    filter_files_by_size [{ id := "r1", name := "r1.jpg", size := some 1500000 }]
        (some 1) (some 5) =
      ([{ id := "r1", name := "r1.jpg", size := some 1500000 }] : List FileRecord).filter
        (fun f =>
          match f.size with
          | some s => decide (1 * 1024 ≤ s ∧ s ≤ 5 * 1024 * 1024)
          | none => false) :=
  c9_size_filter_inclusive.1 [{ id := "r1", name := "r1.jpg", size := some 1500000 }] 1 5
    (by decide) (by decide)

/-- C10: a configured size bound of 0 is falsy, so the corresponding check
is not applied; when both bounds are 0 or None the size stage of
`_filter_files` is skipped entirely and records with no reported size pass
through. -/
theorem c10_zero_bounds_unconfigured :
    (∀ (files : List FileRecord) (ma : Option Nat),
      filter_files_by_size files (some 0) ma = filter_files_by_size files none ma) ∧
    (∀ (files : List FileRecord) (mi : Option Nat),
      filter_files_by_size files mi (some 0) = filter_files_by_size files mi none) ∧
    (∀ (files : List FileRecord) (mi ma : Option Nat),
      pyTruthyNat mi = false → pyTruthyNat ma = false → sizeFilterStage mi ma files = files) ∧
    sizeFilterStage (some 0) (some 0) [{ id := "r7", name := "r7.jpg", size := none }] =
      [{ id := "r7", name := "r7.jpg", size := none }] := by
  refine ⟨?_, ?_, ?_, rfl⟩
  · intro files ma
    apply List.filter_congr
    intro f hf
    cases hs : f.size <;> simp [hs, pyTruthyNat]
  · intro files mi
    apply List.filter_congr
    intro f hf
    cases hs : f.size <;> simp [hs, pyTruthyNat]
  · intro files mi ma h1 h2
    simp [sizeFilterStage, h1, h2]

/-- Witness for C10: the stage-skipping conjunct applied to a one-record
list with both bounds zero; the record with no reported size passes
through. -/
theorem c10_witness :
    sizeFilterStage (some 0) none [{ id := "r8", name := "r8.jpg", size := none }] =
      [{ id := "r8", name := "r8.jpg", size := none }] :=
  c10_zero_bounds_unconfigured.2.2.1 [{ id := "r8", name := "r8.jpg", size := none }]
    (some 0) none rfl rfl

/-- C7: 120 filtered files with batch size 50 produce exactly 3 batches of
sizes 50, 50 and 20; with `skip_errors` set and the batched create call
failing exactly for batch 2, the run reports 70 successes, 0 skips and 50
errors, and the printed per-file outcomes are success for batch 1, error
for every file of batch 2, success for batch 3, in file order. -/
theorem c7_batches_and_batch_isolation :
    (toBatches 50 c7files).map List.length = [50, 50, 20] ∧
    (processFilesInBatches c7env true c7files "alb").1 = .ok (70, 0, 50) ∧
    (printedResults (processFilesInBatches c7env true c7files "alb").2).map SyncResult.status =
      List.replicate 50 "success" ++ List.replicate 50 "error" ++
        List.replicate 20 "success" ∧
    (printedResults (processFilesInBatches c7env true c7files "alb").2).map
        SyncResult.filename = c7files.map FileRecord.name := by
  refine ⟨by decide, rfl, by decide, by decide⟩

/-- Helper: a nonempty list of at most 50 elements is a single 50-chunk. -/
theorem chunks50Go_nil {α : Type} : ∀ fuel, chunks50Go fuel ([] : List α) = [] := by
  intro fuel; cases fuel <;> rfl

theorem chunks50_single {α : Type} (l : List α) (hne : l ≠ []) (hle : l.length ≤ 50) :
    chunks50 l = [l] := by
  cases l with
  | nil => exact absurd rfl hne
  | cons a l' =>
    show chunks50Go (a :: l').length (a :: l') = [a :: l']
    have hlen : (a :: l').length = l'.length + 1 := by simp
    rw [hlen]
    show (a :: l').take 50 :: chunks50Go l'.length ((a :: l').drop 50) = [a :: l']
    rw [List.take_of_length_le (by simp at hle ⊢; omega),
      List.drop_eq_nil_of_le (by simp at hle ⊢; omega), chunks50Go_nil]

/-- Cascade form of the HttpError-only retry loop of the add-to-album
call. -/
theorem retryCallHttp_cascade (o : Nat → Except PyError Unit) :
    retryCallHttp o 2 = specRetryPolicyHttp o := by
  cases h0 : o 0 with
  | ok a => simp [retryCallHttp, retryGoHttp, specRetryPolicyHttp, h0]
  | error e0 =>
    cases e0 with
    | otherError m => simp [retryCallHttp, retryGoHttp, specRetryPolicyHttp, h0]
    | httpError m0 =>
      cases h1 : o 1 with
      | ok a => simp [retryCallHttp, retryGoHttp, specRetryPolicyHttp, h0, h1]
      | error e1 =>
        cases e1 with
        | otherError m => simp [retryCallHttp, retryGoHttp, specRetryPolicyHttp, h0, h1]
        | httpError m1 =>
          cases h2 : o 2 with
          | ok a => simp [retryCallHttp, retryGoHttp, specRetryPolicyHttp, h0, h1, h2]
          | error e2 =>
            cases e2 <;> simp [retryCallHttp, retryGoHttp, specRetryPolicyHttp, h0, h1, h2]

/-- Counterexample for C8 as stated: the claim asserts one uniform retry
policy for download, staging and both batched commit calls, but the
add-to-album call catches only `HttpError`: for a non-HttpError failure of
its first attempt it raises immediately — one attempt, no sleep, no retry
— while the claimed uniform policy would sleep 1 second and succeed on the
second attempt. The traces differ: no sleep happened. -/
theorem c8_counterexample :
    photos_batch_add_media_to_album
        (fun _ k => if k = 0 then Except.error (PyError.otherError "socket closed")
          else Except.ok ()) ["m1"] =
      (.error (PyError.otherError "socket closed"), []) ∧
    specRetryPolicy
        ((fun (_ : List String) (k : Nat) =>
          if k = 0 then Except.error (PyError.otherError "socket closed") else Except.ok ())
          ["m1"]) = (.ok (), [Event.sleep 1]) ∧
    ([] : List Event) ≠ [Event.sleep 1] := by
  refine ⟨rfl, rfl, by decide⟩

/-- C8 (amended): download, staging and the batched create call each follow
the full retry policy — at most 3 attempts, sleeping 1 second before the
second and 2 seconds before the third, the last error raised once retries
are exhausted, later attempts never consulted; the batched add-to-album
call follows that policy only for `HttpError` (the sole exception its
except clause catches): any other exception is raised immediately on its
first occurrence, with no sleep and no retry. For the two batched calls
the policy applies per 50-chunk, stated here for a single-chunk batch. -/
theorem c8_retry_policy_per_catch_clause :
    (∀ (o : Nat → Except String (List Nat)), drive_download_file o = specRetryPolicy o) ∧
    (∀ (o : Nat → Except String String), photos_upload_media o = specRetryPolicy o) ∧
    (∀ (o : List (String × String) → Nat → Except String (List String))
       (tokens : List (String × String)), tokens ≠ [] → tokens.length ≤ 50 →
      photos_batch_create_media_items o tokens = specRetryPolicy (o tokens)) ∧
    (∀ (o : List String → Nat → Except PyError Unit) (ids : List String),
      ids ≠ [] → ids.length ≤ 50 →
      photos_batch_add_media_to_album o ids = specRetryPolicyHttp (o ids)) ∧
    (∀ (o : Nat → Except PyError Unit) (m : String),
      o 0 = .error (PyError.otherError m) →
      retryCallHttp o 2 = (.error (PyError.otherError m), [])) := by
  refine ⟨?_, ?_, ?_, ?_, ?_⟩
  · intro o; exact retryCall_cascade o
  · intro o; exact retryCall_cascade o
  · intro o tokens hne hle
    show batchCreateChunksGo o (chunks50 tokens) = specRetryPolicy (o tokens)
    rw [chunks50_single tokens hne hle]
    show (match retryCall (o tokens) 2 with
      | (.error e, evs) => (.error e, evs)
      | (.ok ids, evs) =>
        match batchCreateChunksGo o [] with
        | (.error e, evs') => (.error e, evs ++ evs')
        | (.ok ids', evs') => (.ok (ids ++ ids'), evs ++ evs')) = specRetryPolicy (o tokens)
    rw [retryCall_cascade]
    rcases hr : specRetryPolicy (o tokens) with ⟨r, evs⟩
    cases r with
    | error e => rfl
    | ok ids => show (.ok (ids ++ []), evs ++ []) = (Except.ok ids, evs); simp
  · intro o ids hne hle
    show batchAddChunksGo o (chunks50 ids) = specRetryPolicyHttp (o ids)
    rw [chunks50_single ids hne hle]
    show (match retryCallHttp (o ids) 2 with
      | (.error e, evs) => (.error e, evs)
      | (.ok _, evs) =>
        match batchAddChunksGo o [] with
        | (r, evs') => (r, evs ++ evs')) = specRetryPolicyHttp (o ids)
    rw [retryCallHttp_cascade]
    rcases hr : specRetryPolicyHttp (o ids) with ⟨r, evs⟩
    cases r with
    | error e => rfl
    | ok u => cases u; show (Except.ok (), evs ++ []) = (Except.ok (), evs); simp
  · intro o m h0
    simp [retryCallHttp, retryGoHttp, h0]

/-- Witness for C8 (amended): the batched-create conjunct at a one-token
batch whose first attempt fails and second succeeds (one 1-second sleep,
then success); the add-to-album conjunct at a one-id batch whose first
attempt raises an `HttpError` and whose second succeeds; and the
no-retry conjunct at an oracle whose first attempt raises a
non-HttpError. -/
theorem c8_witness :
    photos_batch_create_media_items
        (fun _ k => if k = 0 then Except.error "transient" else Except.ok ["m1"])
        [("t1", "n1.jpg")] =
      specRetryPolicy
        ((fun _ k => if k = 0 then Except.error "transient" else Except.ok ["m1"])
          [("t1", "n1.jpg")]) ∧
    photos_batch_add_media_to_album
        (fun _ k => if k = 0 then Except.error (PyError.httpError "503") else Except.ok ())
        ["m1"] =
      specRetryPolicyHttp
        ((fun (_ : List String) (k : Nat) =>
          if k = 0 then Except.error (PyError.httpError "503") else Except.ok ()) ["m1"]) ∧
    retryCallHttp
        (fun k => if k = 0 then Except.error (PyError.otherError "socket closed")
          else Except.ok ()) 2 =
      (.error (PyError.otherError "socket closed"), []) := by
  refine ⟨?_, ?_, ?_⟩
  · exact c8_retry_policy_per_catch_clause.2.2.1
      (fun _ k => if k = 0 then Except.error "transient" else Except.ok ["m1"])
      [("t1", "n1.jpg")] (by decide) (by decide)
  · exact c8_retry_policy_per_catch_clause.2.2.2.1
      (fun _ k => if k = 0 then Except.error (PyError.httpError "503") else Except.ok ())
      ["m1"] (by decide) (by decide)
  · exact c8_retry_policy_per_catch_clause.2.2.2.2
      (fun k => if k = 0 then Except.error (PyError.otherError "socket closed")
        else Except.ok ()) "socket closed" rfl

/-- C5 (amended): with a caller-supplied album id and an empty filtered
list, `sync` short-circuits after the media filter: it performs zero
download, staging, commit or add-to-album calls and returns after logging
the "No files to sync after applying filters" line — without logging the
aggregate summary. -/
theorem c5_empty_run_short_circuit (env : Env) (cfg : SyncConfig) (fid album_id : String)
    (hne : album_id ≠ "")
    (hempty : filterFiles env cfg (env.list_files_recursive fid) = []) :
    sync env cfg fid none (some album_id) = (.ok (), [Event.logNoFiles]) := by
  have htr : pyTruthyStr (some album_id) = true := by simp [pyTruthyStr, hne]
  simp [sync, htr, hempty]

/-- Witness for C5: a run whose extension filter removes the only listed
file short-circuits with just the no-files log line. -/
theorem c5_witness :
    sync okEnv { file_types := some ["png"] } "fid" none (some "alb") =
      (.ok (), [Event.logNoFiles]) :=
  c5_empty_run_short_circuit okEnv { file_types := some ["png"] } "fid" "alb"
    (by decide) (by rfl)

/-- Counterexample for C5 as stated: the empty-filtered run returns right
after the no-files log line; no 0/0/0 aggregate summary is logged (the
run never reaches the summary logging of the non-empty path). -/
theorem c5_counterexample :
    sync c5env {} "fid" none (some "alb") = (.ok (), [Event.logNoFiles]) ∧
    Event.logSummary 0 0 0 ∉ (sync c5env {} "fid" none (some "alb")).2 := by
  refine ⟨rfl, by decide⟩

/-- Counterexample for C1 as stated: the item reference returned by the
commit for `a.jpg` is already a member of album `alb`
(`check_media_exists_in_album` returns true), yet the engine marks the file
`success` — it never performs the membership check, so no `skipped` /
"duplicate content (target-detected)" outcome exists. -/
theorem c1_counterexample :
    check_media_exists_in_album c1env "alb" "item_a.jpg" = true ∧
    (processFiles c1env false "alb" [] [c1file]).1 =
      .ok ([SyncResult.mk "a.jpg" "success" (some "uploaded successfully (5)") none], ["h1"]) ∧
    (SyncResult.mk "a.jpg" "success" (some "uploaded successfully (5)") none).status ≠
      "skipped" := by
  refine ⟨rfl, rfl, by decide⟩

/-- C1 (amended): when the batched create and add-to-album calls succeed,
`_create_and_add_media_items` marks every staged file `success`
unconditionally — the album's existing contents are never consulted, so a
file whose committed item reference is already a member of the album is
still reported `success`, never `skipped`. -/
theorem c1_commit_success_never_skipped (env : Env) (skip : Bool)
    (tokens : List (String × String)) (mapping : List FileRecord) (album_id : String)
    (hashes : List String) (ids : List String)
    (hc : env.batch_create_media_items tokens = .ok ids)
    (ha : env.batch_add_media_to_album album_id ids = .ok ()) :
    createAndAddMediaItems env skip tokens mapping album_id hashes =
      (.ok (mapping.map (commitSuccessResult env), addHashes mapping hashes),
       [Event.batchCreate tokens.length, Event.batchAdd ids.length]) ∧
    ∀ r ∈ mapping.map (commitSuccessResult env), r.status = "success" := by
  refine ⟨createAndAdd_success env skip tokens mapping album_id hashes ids hc ha, ?_⟩
  intro r hr
  obtain ⟨g, -, rfl⟩ := List.mem_map.mp hr
  rfl

/-- Witness for C1 (amended): a one-file commit in the environment whose
album already contains the returned item reference still yields a
`success` result. -/
theorem c1_witness :
    createAndAddMediaItems c1env true [("t", "a.jpg")] [c1file] "alb" [] =
      (.ok ([c1file].map (commitSuccessResult c1env), addHashes [c1file] []),
       [Event.batchCreate 1, Event.batchAdd 1]) :=
  (c1_commit_success_never_skipped c1env true [("t", "a.jpg")] [c1file] "alb" []
    ["item_a.jpg"] rfl rfl).1

/-- Counterexample for C2 as stated: two files with the same non-empty
content-hash inside the same batch are BOTH downloaded and both marked
`success` — the second is not skipped, because the hash only enters the
processed set after the batch's commit, which happens after both uploads. -/
theorem c2_counterexample :
    (processFilesInBatches okEnv false [c2fileA, c2fileB] "alb").1 = .ok (2, 0, 0) ∧
    (printedResults (processFilesInBatches okEnv false [c2fileA, c2fileB] "alb").2).map
      SyncResult.status = ["success", "success"] ∧
    Event.download "fb" ∈ (processFilesInBatches okEnv false [c2fileA, c2fileB] "alb").2 := by
  refine ⟨rfl, by decide, by decide⟩

/-- C2 (amended): a record whose non-empty content-hash is already in the
processed set when its batch is walked is skipped with the duplicate-content
reason and nothing is downloaded or staged for it; a failed batched create
leaves the processed set unchanged; after a successful commit the set
contains exactly the old hashes plus the truthy hashes of the staged files.
Hence the second of two same-hash records is skipped only when it is
processed in a later batch than the first's successful commit. -/
theorem c2_dedup_only_across_batches :
    (∀ (env : Env) (skip : Bool) (hashes : List String) (f : FileRecord)
       (rest : List FileRecord) (h : String),
      f.md5Checksum = some h → h ≠ "" → h ∈ hashes →
      uploadFiles env skip hashes (f :: rest) =
        ((uploadFiles env skip hashes rest).1.map
           (fun t => (t.1, t.2.1, dupSkipResult f :: t.2.2)),
         (uploadFiles env skip hashes rest).2)) ∧
    (∀ (env : Env) (tokens : List (String × String)) (mapping : List FileRecord)
       (album_id : String) (hashes : List String) (e : String),
      env.batch_create_media_items tokens = .error e →
      createAndAddMediaItems env true tokens mapping album_id hashes =
        (.ok (mapping.map (commitErrorResult e), hashes),
         [Event.batchCreate tokens.length])) ∧
    (∀ (env : Env) (skip : Bool) (tokens : List (String × String))
       (mapping : List FileRecord) (album_id : String) (hashes : List String)
       (ids : List String) (a : String),
      env.batch_create_media_items tokens = .ok ids →
      env.batch_add_media_to_album album_id ids = .ok () →
      (createAndAddMediaItems env skip tokens mapping album_id hashes).1 =
        .ok (mapping.map (commitSuccessResult env), addHashes mapping hashes) ∧
      (a ∈ addHashes mapping hashes ↔
        a ∈ hashes ∨ ∃ f ∈ mapping, f.md5Checksum = some a ∧ a ≠ "")) := by
  refine ⟨?_, ?_, ?_⟩
  · intro env skip hashes f rest h hmd hne hmem
    apply uploadFiles_cons_dup
    simp [isDupHash, hmd, pyTruthyStr, hne, hmem]
  · intro env tokens mapping album_id hashes e hc
    exact createAndAdd_create_err_skip env tokens mapping album_id hashes e hc
  · intro env skip tokens mapping album_id hashes ids a hc ha
    refine ⟨?_, addHashes_mem mapping hashes a⟩
    rw [createAndAdd_success env skip tokens mapping album_id hashes ids hc ha]

/-- Witness for C2 (amended): with hash h already processed, the second
file is skipped with no download; a failing create call leaves the set
unchanged; a successful one-file commit reports success. -/
theorem c2_witness :
    uploadFiles okEnv false ["h"] [c2fileB] =
      ((uploadFiles okEnv false ["h"] []).1.map
         (fun t => (t.1, t.2.1, dupSkipResult c2fileB :: t.2.2)),
       (uploadFiles okEnv false ["h"] []).2) ∧
    createAndAddMediaItems c7env true [("t", "n50")] [c2fileA] "alb" ["x"] =
      (.ok ([c2fileA].map (commitErrorResult "commit failed"), ["x"]),
       [Event.batchCreate 1]) ∧
    (createAndAddMediaItems okEnv false [("t", "a.jpg")] [c2fileA] "alb" []).1 =
      .ok ([c2fileA].map (commitSuccessResult okEnv), addHashes [c2fileA] []) := by
  refine ⟨?_, ?_, ?_⟩
  · exact c2_dedup_only_across_batches.1 okEnv false ["h"] c2fileB [] "h" rfl
      (by decide) (by decide)
  · exact c2_dedup_only_across_batches.2.1 c7env [("t", "n50")] [c2fileA] "alb" ["x"]
      "commit failed" rfl
  · exact (c2_dedup_only_across_batches.2.2 okEnv false [("t", "a.jpg")] [c2fileA] "alb" []
      ["item_a.jpg"] "h" rfl rfl).1

/-- Counterexample for C3 as stated: the album's current filenames are
{a.jpg, a_1.jpg, a_2.jpg} and the incoming file is named a.jpg, so the
claim demands staging under a_3.jpg (which is what the standalone utility
would produce); the engine instead stages under the original name a.jpg —
it never consults the album's filenames. -/
theorem c3_counterexample :
    (c3env.album_media_items "alb").map MediaItem.filename =
      ["a.jpg", "a_1.jpg", "a_2.jpg"] ∧
    (uploadFiles c3env false [] [c1file]).2 =
      [Event.download "f1", Event.upload "a.jpg"] ∧
    generate_unique_filename "a.jpg" ["a.jpg", "a_1.jpg", "a_2.jpg"] = "a_3.jpg" ∧
    ("a.jpg" : String) ≠ "a_3.jpg" := by
  refine ⟨rfl, rfl, by decide, by decide⟩

/-- C3 (amended): the utility `generate_unique_filename` does return the
first of `<base>_1<ext>`, `<base>_2<ext>`, ... absent from the
existing-name set (with the two quoted examples), but the upload pipeline
never invokes it: every staging call uses the file's original name. -/
theorem c3_rename_utility_unused :
    (∀ (orig : String) (existing : List String), orig ∈ existing →
      ∃ c, 1 ≤ c ∧
        (∀ k, 1 ≤ k → k < c →
          candidate (splitBaseExt orig).1 (splitBaseExt orig).2 k ∈ existing) ∧
        candidate (splitBaseExt orig).1 (splitBaseExt orig).2 c ∉ existing ∧
        generate_unique_filename orig existing =
          candidate (splitBaseExt orig).1 (splitBaseExt orig).2 c) ∧
    (∀ (env : Env) (skip : Bool) (hashes : List String) (files : List FileRecord)
       (n : String), Event.upload n ∈ (uploadFiles env skip hashes files).2 →
      n ∈ files.map FileRecord.name) ∧
    generate_unique_filename "a.jpg" ["a.jpg", "a_1.jpg", "a_2.jpg"] = "a_3.jpg" ∧
    generate_unique_filename "doc" ["doc"] = "doc_1" := by
  refine ⟨?_, ?_, by decide, by decide⟩
  · intro orig existing h
    exact generate_unique_filename_fresh orig existing h
  · intro env skip hashes files n hev
    rcases uploadFiles_events env skip hashes files (Event.upload n) hev with
      ⟨f, hf, heq⟩ | ⟨f, hf, heq⟩
    · simp at heq
    · simp only [Event.upload.injEq] at heq
      subst heq
      exact List.mem_map_of_mem FileRecord.name hf

/-- Witness for C3 (amended): the freshness property applied to the quoted
a.jpg example, and the staged-name property applied to a concrete one-file
upload. -/
theorem c3_witness :
    (∃ c, 1 ≤ c ∧
      (∀ k, 1 ≤ k → k < c →
        candidate (splitBaseExt "a.jpg").1 (splitBaseExt "a.jpg").2 k ∈
          ["a.jpg", "a_1.jpg", "a_2.jpg"]) ∧
      candidate (splitBaseExt "a.jpg").1 (splitBaseExt "a.jpg").2 c ∉
        ["a.jpg", "a_1.jpg", "a_2.jpg"] ∧
      generate_unique_filename "a.jpg" ["a.jpg", "a_1.jpg", "a_2.jpg"] =
        candidate (splitBaseExt "a.jpg").1 (splitBaseExt "a.jpg").2 c) ∧
    "a.jpg" ∈ ([c1file].map FileRecord.name) := by
  refine ⟨?_, ?_⟩
  · exact c3_rename_utility_unused.1 "a.jpg" ["a.jpg", "a_1.jpg", "a_2.jpg"] (by decide)
  · exact c3_rename_utility_unused.2.1 okEnv false [] [c1file] "a.jpg" (by decide)

/-- C6: for every batch entering `_process_files`, a successful return
carries exactly one SyncResult per file (the multiset of result filenames
is a permutation of the batch's filenames) with status success, skipped or
error; an exception aborts instead (the `Except.error` case). Lifted to
the whole run: the final success/skip/error counts sum to the number of
filtered files. -/
theorem c6_every_file_one_result :
    (∀ (env : Env) (skip : Bool) (album_id : String) (hashes : List String)
       (files : List FileRecord) (res : List SyncResult) (h' : List String)
       (tr : List Event),
      processFiles env skip album_id hashes files = (.ok (res, h'), tr) →
      List.Perm (files.map FileRecord.name) (res.map SyncResult.filename) ∧
      ∀ r ∈ res, r.status = "success" ∨ r.status = "skipped" ∨ r.status = "error") ∧
    (∀ (env : Env) (skip : Bool) (files : List FileRecord) (album_id : String)
       (s k e : Nat) (tr : List Event),
      processFilesInBatches env skip files album_id 50 = (.ok (s, k, e), tr) →
      s + k + e = files.length) := by
  refine ⟨?_, ?_⟩
  · intro env skip album_id hashes files res h' tr h
    exact processFiles_ok_shape env skip album_id hashes files res h' tr h
  · intro env skip files album_id s k e tr h
    have hc := processBatchesGo_counts env skip album_id (toBatches 50 files) [] 0 0 0 s k e tr h
    have hflat : ((toBatches 50 files).map List.length).sum = files.length := by
      rw [← List.length_flatten, toBatches_flatten 50 (by norm_num) files]
    omega

/-- Witness for C6: one concrete two-file batch yields exactly two results
whose filenames are a permutation of the input names, and the concrete
run's counts sum to the number of files. -/
theorem c6_witness :
    List.Perm ([c2fileA, c2fileB].map FileRecord.name)
      (([commitSuccessResult okEnv c2fileA, commitSuccessResult okEnv c2fileB]).map
        SyncResult.filename) ∧
    2 + 0 + 0 = ([c2fileA, c2fileB] : List FileRecord).length := by
  refine ⟨?_, ?_⟩
  · exact (c6_every_file_one_result.1 okEnv false "alb" [] [c2fileA, c2fileB]
      [commitSuccessResult okEnv c2fileA, commitSuccessResult okEnv c2fileB]
      (addHashes [c2fileA, c2fileB] [])
      [Event.download "fa", Event.upload "a.jpg", Event.download "fb", Event.upload "b.jpg",
       Event.batchCreate 2, Event.batchAdd 2] rfl).1
  · exact c6_every_file_one_result.2 okEnv false [c2fileA, c2fileB] "alb" 2 0 0
      [Event.download "fa", Event.upload "a.jpg", Event.download "fb", Event.upload "b.jpg",
       Event.batchCreate 2, Event.batchAdd 2,
       Event.printResult (commitSuccessResult okEnv c2fileA),
       Event.printResult (commitSuccessResult okEnv c2fileB)] rfl

/-! ## Equation lemmas for the branches of `sync` -/

theorem sync_eq_batchfail (env : Env) (cfg : SyncConfig) (fid : String)
    (an aid : Option String) (alb e : String) (trp : List Event)
    (hx : (if pyTruthyStr aid then some (Except.ok (aid.getD ""))
      else if pyTruthyStr an then some (env.get_or_create_album (an.getD ""))
      else none) = some (Except.ok alb))
    (hm : (filterFiles env cfg (env.list_files_recursive fid)).isEmpty = false)
    (hpb : processFilesInBatches env cfg.skip_errors
      (filterFiles env cfg (env.list_files_recursive fid)) alb = (.error e, trp)) :
    sync env cfg fid an aid = (.error e, trp ++ [Event.logFailed]) := by
  simp [sync, hx, hm, hpb]

theorem sync_eq_ok (env : Env) (cfg : SyncConfig) (fid : String)
    (an aid : Option String) (alb : String) (s k er : Nat) (trp : List Event)
    (rn : Except String Unit) (trn : List Event)
    (hx : (if pyTruthyStr aid then some (Except.ok (aid.getD ""))
      else if pyTruthyStr an then some (env.get_or_create_album (an.getD ""))
      else none) = some (Except.ok alb))
    (hm : (filterFiles env cfg (env.list_files_recursive fid)).isEmpty = false)
    (hpb : processFilesInBatches env cfg.skip_errors
      (filterFiles env cfg (env.list_files_recursive fid)) alb = (.ok (s, k, er), trp))
    (hn : syncNotify env cfg alb s = (rn, trn)) :
    sync env cfg fid an aid =
      (rn, trp ++ [Event.logCompleted, Event.logSummary s k er] ++ trn) := by
  simp [sync, hx, hm, hpb, hn]

theorem syncNotify_browserOpen (env : Env) (cfg : SyncConfig) (alb u : String) (s : Nat)
    (hev : Event.browserOpen u ∈ (syncNotify env cfg alb s).2) :
    cfg.launch_browser = true ∧ 0 < s ∧ u = get_album_url alb := by
  cases hlb : cfg.launch_browser && decide (0 < s) with
  | false =>
    rw [syncNotify, if_neg (by simp [hlb])] at hev
    simp at hev
  | true =>
    have hlb2 := hlb
    simp only [Bool.and_eq_true, decide_eq_true_eq] at hlb2
    obtain ⟨hl, hs⟩ := hlb2
    refine ⟨hl, hs, ?_⟩
    rw [syncNotify, if_pos hlb] at hev
    rcases hwb : env.webbrowser_open (get_album_url alb) with uu | m
    · rw [hwb] at hev
      simpa using hev
    · rw [hwb] at hev
      rcases List.mem_cons.mp hev with hev | hev
      · simpa using hev
      · simp at hev

theorem syncNotify_error (env : Env) (cfg : SyncConfig) (alb u m : String) (s : Nat)
    (hev : Event.browserOpen u ∈ (syncNotify env cfg alb s).2)
    (hwb : env.webbrowser_open u = .error m) :
    (syncNotify env cfg alb s).1 = .error m := by
  obtain ⟨hl, hs, huu⟩ := syncNotify_browserOpen env cfg alb u s hev
  subst huu
  rw [syncNotify, if_pos (by simp [hl]; omega)]
  rw [hwb]

/-- Case analysis of `sync`: a browser-open event arises only on the success
path, under the `launch_browser && success_count > 0` guard, after the
summary log line; and when the browser call fails, `sync` re-raises that
failure. -/
theorem sync_browserOpen_cases (env : Env) (cfg : SyncConfig) (fid : String)
    (an aid : Option String) (u : String)
    (hev : Event.browserOpen u ∈ (sync env cfg fid an aid).2) :
    cfg.launch_browser = true ∧
    (∃ s k e, Event.logSummary s k e ∈ (sync env cfg fid an aid).2 ∧ 0 < s) ∧
    (∀ m, env.webbrowser_open u = .error m → (sync env cfg fid an aid).1 = .error m) := by
  rcases hx : (if pyTruthyStr aid then some (Except.ok (aid.getD ""))
    else if pyTruthyStr an then some (env.get_or_create_album (an.getD ""))
    else none) with - | r
  · simp only [sync, hx] at hev
    simp at hev
  · cases r with
    | error e =>
      simp only [sync, hx] at hev
      simp at hev
    | ok alb =>
      cases hm : (filterFiles env cfg (env.list_files_recursive fid)).isEmpty with
      | true =>
        simp only [sync, hx, hm] at hev
        simp at hev
      | false =>
        rcases hpb : processFilesInBatches env cfg.skip_errors
            (filterFiles env cfg (env.list_files_recursive fid)) alb with ⟨rp, trp⟩
        have htrp : ∀ ev ∈ trp, isPipelineEvent ev := by
          intro ev hevv
          refine processBatchesGo_events env cfg.skip_errors alb
            (toBatches 50 (filterFiles env cfg (env.list_files_recursive fid))) [] (0, 0, 0)
            ev ?_
          rw [show (processBatchesGo env cfg.skip_errors alb
              (toBatches 50 (filterFiles env cfg (env.list_files_recursive fid))) []
              (0, 0, 0)).2 = trp from congrArg Prod.snd hpb]
          exact hevv
        have hnb : Event.browserOpen u ∉ trp := by
          intro hmem
          rcases htrp _ hmem with ⟨i, hcl⟩ | ⟨n, hcl⟩ | ⟨n, hcl⟩ | ⟨n, hcl⟩ | ⟨rr, hcl⟩ <;>
            simp at hcl
        cases rp with
        | error e =>
          rw [sync_eq_batchfail env cfg fid an aid alb e trp hx hm hpb] at hev
          rcases List.mem_append.mp hev with hev | hev
          · exact absurd hev hnb
          · simp at hev
        | ok v =>
          obtain ⟨s, k, er⟩ := v
          rcases hn : syncNotify env cfg alb s with ⟨rn, trn⟩
          rw [sync_eq_ok env cfg fid an aid alb s k er trp rn trn hx hm hpb hn] at hev ⊢
          have hevn : Event.browserOpen u ∈ trn := by
            rcases List.mem_append.mp hev with hev | hev
            · rcases List.mem_append.mp hev with hev | hev
              · exact absurd hev hnb
              · simp at hev
            · exact hev
          have hevn' : Event.browserOpen u ∈ (syncNotify env cfg alb s).2 := by
            rw [hn]; exact hevn
          obtain ⟨hl, hs, huu⟩ := syncNotify_browserOpen env cfg alb u s hevn'
          refine ⟨hl, ⟨s, k, er, by simp, hs⟩, ?_⟩
          intro m hm2
          have := syncNotify_error env cfg alb u m s hevn' hm2
          rw [hn] at this
          simpa using this

/-- Counterexample for C4 as stated: a run with one successful file whose
browser open fails: the notification step fires (the browser-open event is
in the trace) and its failure propagates — `sync` returns that very error,
contradicting "neither changes the sync outcome nor raises". -/
theorem c4_counterexample :
    (sync c4env {} "fid" none (some "alb")).1 = .error "browser failed" ∧
    Event.browserOpen "https://photos.google.com/lr/album/alb" ∈
      (sync c4env {} "fid" none (some "alb")).2 := by
  refine ⟨rfl, by decide⟩

/-- C4 (amended): the notification step runs only when `launch_browser` is
configured and the success count is strictly positive (every browser-open
event implies the flag and a logged summary with positive success count);
but when the step does fire and the browser call fails, the failure is
re-raised by `sync`'s outer handler, so the run's outcome becomes that
error. -/
theorem c4_notify_guard_and_raise :
    (∀ (env : Env) (cfg : SyncConfig) (fid : String) (an aid : Option String) (u : String),
      Event.browserOpen u ∈ (sync env cfg fid an aid).2 →
      cfg.launch_browser = true ∧
      ∃ s k e, Event.logSummary s k e ∈ (sync env cfg fid an aid).2 ∧ 0 < s) ∧
    (∀ (env : Env) (cfg : SyncConfig) (fid : String) (an aid : Option String) (u m : String),
      Event.browserOpen u ∈ (sync env cfg fid an aid).2 →
      env.webbrowser_open u = .error m →
      (sync env cfg fid an aid).1 = .error m) := by
  refine ⟨?_, ?_⟩
  · intro env cfg fid an aid u hev
    obtain ⟨hl, hsum, -⟩ := sync_browserOpen_cases env cfg fid an aid u hev
    exact ⟨hl, hsum⟩
  · intro env cfg fid an aid u m hev hwb
    obtain ⟨-, -, hprop⟩ := sync_browserOpen_cases env cfg fid an aid u hev
    exact hprop m hwb

/-- Witness for C4 (amended): the concrete failing-browser run: the
browser-open event is in the trace, so the guard conjunct yields the flag
and a positive-success summary, and the propagation conjunct yields the
error outcome. -/
theorem c4_witness :
    ((sync c4env {} "fid" none (some "alb")).1 = .error "browser failed") ∧
    SyncConfig.launch_browser {} = true := by
  refine ⟨?_, ?_⟩
  · exact c4_notify_guard_and_raise.2 c4env {} "fid" none (some "alb")
      "https://photos.google.com/lr/album/alb" "browser failed" (by decide) rfl
  · exact (c4_notify_guard_and_raise.1 c4env {} "fid" none (some "alb")
      "https://photos.google.com/lr/album/alb" (by decide)).1
